import Mathlib

/-!
# gochess: the game state machine (`internal/model/game.go`)

A shallow embedding of `Game.Move`, `Game.updatePositionHistory`,
`Game.MarshalBinary`, `createGame` and the small accessors of `game.go`.

`game.go` calls into the piece and board code of the same package
(`takeMove`, `AllMoves`, `isThreatened`, the per-piece `MarshalBinary`,
`NewFullBoard`, ...).  Those functions live in files of the package that are
not embedded here, so they are taken as parameters, bundled in `Rules`, and
the theorems about `Game.Move` hold for every choice of them.  A small
concrete rule set (`demoRules`) is used to evaluate the definitions on
concrete games.

A Go method with a pointer receiver that mutates the game and returns an
`error` becomes a function that returns the pair (error, game afterwards).
The mutexes and the two debugging prints are not modelled.
-/

namespace model

/-- Modelled from the spec: `Color`, declared outside `game.go`; `game.go`
uses exactly the two constants `Black` and `White`. -/
inductive Color where
  | Black
  | White
  deriving DecidableEq, Repr

/-- Modelled from the spec: `Position`, "(file, rank) each in [0,7]", declared
outside `game.go`.  The callers build a position from two `uint8`; a position
off the board is outside the data model and is not represented. -/
structure Position where
  File : Fin 8
  Rank : Fin 8
  deriving DecidableEq, Repr

/-- Modelled from the spec: `Move`, a "relative delta (dFile, dRank)",
declared outside `game.go`. -/
structure Move where
  X : Int
  Y : Int
  deriving DecidableEq, Repr

/-- Modelled from the spec: `PieceType`, the six piece kinds "pawn, knight,
bishop, rook, queen, king", declared outside `game.go`. -/
inductive PieceType where
  | Pawn
  | Knight
  | Bishop
  | Rook
  | Queen
  | King
  deriving DecidableEq, Repr

/-- Go `error` values that `game.go` produces or passes on: the package
variable `ErrGameOver` and errors made by `errors.New`. -/
inductive Error where
  | ErrGameOver
  | New (msg : String)
  deriving DecidableEq, Repr

/-- The struct `GameResult`. -/
structure GameResult where
  Winner : Color
  Draw : Bool
  deriving DecidableEq, Repr

/-- The struct `MoveRequest`; the pointer `PromoteTo` is an `Option`. -/
structure MoveRequest where
  Position : Position
  Move : Move
  PromoteTo : Option PieceType
  deriving DecidableEq, Repr

/-- The struct `Game` (without its mutex).  `Board` stands for the board array
together with the state of the piece objects it points to, `Piece` for the
identity of a piece object, so a `*Piece` is an `Option Piece`.  The map
`positionHistory` from byte strings to `uint8` is a function into `Nat` whose
updates are reduced modulo 256; a missing key reads 0. -/
structure Game (Board Piece : Type) where
  board : Board
  turn : Color
  gameOver : Bool
  result : GameResult
  previousMove : Move
  previousMover : Option Piece
  blackKing : Option Piece
  whiteKing : Option Piece
  positionHistory : List Nat → Nat

/-- The functions and constants of package `model` that `game.go` uses and
that are declared outside `game.go`, as parameters.

* `zeroColor`: the zero value of `Color` (what a fresh `Game` literal holds in
  `turn` and `result.Winner`);
* `pieceAt b p`: the entry `b[p.File][p.Rank]`;
* `color`: the field `piece.color`, fixed for the life of a piece;
* `takeMove piece b move previousMove previousMover king promoteTo`: the
  error returned together with the board as the call leaves it;
* `AllMoves`, `isThreatened`: queries, they do not change the board;
* `writeColor`: the bytes `binary.Write` emits for a `Color`;
* `pieceMarshalBinary`: the method `MarshalBinary` of a piece;
* `NewFullBoard`, `NewBoardNoPawns`: the two initial boards. -/
structure Rules (Board Piece : Type) where
  zeroColor : Color
  pieceAt : Board → Position → Option Piece
  color : Piece → Color
  takeMove : Piece → Board → Move → Move → Option Piece → Option Piece →
    Option PieceType → Option Error × Board
  AllMoves : Board → Color → Move → Option Piece → Bool → Option Piece →
    List (Position × Move)
  isThreatened : Option Piece → Board → Move → Option Piece → Bool
  writeColor : Color → Except Error (List Nat)
  pieceMarshalBinary : Piece → Board → Move → Option Piece → Option Piece →
    Except Error (List Nat)
  NewFullBoard : Board
  NewBoardNoPawns : Board

variable {Board Piece : Type}

/-- The function `getOppositeColor`. -/
def getOppositeColor (color : Color) : Color :=
  if color = Color.Black then Color.White else Color.Black

/-- The indices 0..7 in increasing order, as a `range` loop visits them. -/
def indices : List (Fin 8) := [0, 1, 2, 3, 4, 5, 6, 7]

/-- The squares in the order of the nested loops of `Game.MarshalBinary`:
file by file, and rank by rank within a file. -/
def squares : List Position :=
  indices.flatMap fun f => indices.map fun r => { File := f, Rank := r }

/-- The nested loops of `Game.MarshalBinary` over the squares still to visit:
`buf` is the buffer so far; a piece that fails to marshal ends the loop with
its error. -/
def Game.marshalSquares (R : Rules Board Piece) (game : Game Board Piece) :
    List Position → List Nat → Except Error (List Nat)
  | [], buf => Except.ok buf
  | pos :: rest, buf =>
    match R.pieceAt game.board pos with
    | none => Game.marshalSquares R game rest buf
    | some piece =>
      let king :=
        if R.color piece = Color.White then game.whiteKing else game.blackKing
      match R.pieceMarshalBinary piece game.board game.previousMove
          game.previousMover king with
      | Except.error err => Except.error err
      | Except.ok bytes => Game.marshalSquares R game rest (buf ++ bytes)

/-- The method `Game.MarshalBinary`: the turn, then every piece on the board. -/
def Game.MarshalBinary (R : Rules Board Piece) (game : Game Board Piece) :
    Except Error (List Nat) :=
  match R.writeColor game.turn with
  | Except.error err => Except.error err
  | Except.ok turnBytes => Game.marshalSquares R game squares turnBytes

/-- The method `Game.updatePositionHistory`: the returned pair is the Go
result `(bool, error)` and the game afterwards. -/
def Game.updatePositionHistory (R : Rules Board Piece) (game : Game Board Piece) :
    Except Error Bool × Game Board Piece :=
  match Game.MarshalBinary R game with
  | Except.error err => (Except.error err, game)
  | Except.ok position =>
    let count := (game.positionHistory position + 1) % 256
    (Except.ok (decide (count > 2)),
      { game with
        positionHistory := fun key => if key = position then count else game.positionHistory key })

/-- The branch of `Game.Move` that ends the game after the reply enumeration:
`noReplies` is `len(possibleEnemyMoves) == 0`, `threatened` the value of
`enemyKing.isThreatened(...)`. -/
def Game.applyOutcome (game : Game Board Piece) (noReplies threatened drawByRepetion : Bool) :
    Game Board Piece :=
  if noReplies && threatened then
    { game with gameOver := true, result := { game.result with Winner := game.turn } }
  else if noReplies || drawByRepetion then
    { game with gameOver := true, result := { game.result with Draw := true } }
  else game

/-- The method `Game.Move`: the returned error (`none` is Go's `nil`) and the
game afterwards. -/
def Game.Move (R : Rules Board Piece) (game : Game Board Piece) (moveRequest : MoveRequest) :
    Option Error × Game Board Piece :=
  let position := moveRequest.Position
  let move := moveRequest.Move
  if game.gameOver then (some Error.ErrGameOver, game)
  else
    match R.pieceAt game.board position with
    | none => (some (Error.New "Cannot move nil piece"), game)
    | some piece =>
      if R.color piece ≠ game.turn then (some (Error.New "It's not your turn"), game)
      else
        let king := if game.turn = Color.White then game.whiteKing else game.blackKing
        let enemyKing := if game.turn = Color.White then game.blackKing else game.whiteKing
        let taken := R.takeMove piece game.board move game.previousMove
          game.previousMover king moveRequest.PromoteTo
        let moved : Game Board Piece := { game with board := taken.2 }
        match taken.1 with
        | some err => (some err, moved)
        | none =>
          match Game.updatePositionHistory R moved with
          | (Except.error err, recorded) => (some err, recorded)
          | (Except.ok drawByRepetion, recorded) =>
            let enemyColor := getOppositeColor (R.color piece)
            let possibleEnemyMoves :=
              R.AllMoves recorded.board enemyColor move (some piece) false enemyKing
            let noReplies := decide (possibleEnemyMoves.length = 0)
            let decided := Game.applyOutcome recorded noReplies
              (R.isThreatened enemyKing recorded.board move (some piece)) drawByRepetion
            (none, { decided with
              previousMove := move, previousMover := some piece, turn := enemyColor })

/-- The composite literal at the start of `createGame`: every field it does
not name holds its zero value. -/
def Game.literal (R : Rules Board Piece) (board : Board) : Game Board Piece :=
  { board := board
    turn := R.zeroColor
    gameOver := false
    result := { Winner := R.zeroColor, Draw := false }
    previousMove := { X := 0, Y := 0 }
    previousMover := none
    blackKing := R.pieceAt board { File := 4, Rank := 7 }
    whiteKing := R.pieceAt board { File := 4, Rank := 0 }
    positionHistory := fun _ => 0 }

/-- The function `createGame`: the error of `updatePositionHistory` is
dropped, as in the source, and the turn is set afterwards. -/
def createGame (R : Rules Board Piece) (board : Board) : Game Board Piece :=
  { (Game.updatePositionHistory R (Game.literal R board)).2 with turn := Color.White }

/-- The function `NewGame`. -/
def NewGame (R : Rules Board Piece) : Game Board Piece :=
  createGame R R.NewFullBoard

/-- The function `NewGameNoPawns`. -/
def NewGameNoPawns (R : Rules Board Piece) : Game Board Piece :=
  createGame R R.NewBoardNoPawns

/-- The method `Game.Turn`. -/
def Game.Turn (game : Game Board Piece) : Color := game.turn

/-- The method `Game.GameOver`. -/
def Game.GameOver (game : Game Board Piece) : Bool := game.gameOver

/-- The method `Game.Result`. -/
def Game.Result (game : Game Board Piece) : GameResult := game.result

/-- The method `Game.SetGameResult`. -/
def Game.SetGameResult (game : Game Board Piece) (winner : Color) (draw : Bool) :
    Game Board Piece :=
  { game with gameOver := true, result := { Winner := winner, Draw := draw } }

/-- The game as `Game.Move` holds it when it calls `updatePositionHistory`
for the piece it moves: `takeMove` has run on the board and no other field has
been written yet. -/
def Game.moved (R : Rules Board Piece) (game : Game Board Piece) (request : MoveRequest)
    (piece : Piece) : Game Board Piece :=
  { game with
    board := (R.takeMove piece game.board request.Move game.previousMove game.previousMover
      (if game.turn = Color.White then game.whiteKing else game.blackKing)
      request.PromoteTo).2 }

/-- The key whose counter a call of `Game.Move` increments: the result of
`MarshalBinary` at the point where `Move` calls `updatePositionHistory`, and
`none` when the call returns before that point or the encoding fails. -/
def Game.recordedKey (R : Rules Board Piece) (game : Game Board Piece) (request : MoveRequest) :
    Option (List Nat) :=
  if game.gameOver then none
  else
    match R.pieceAt game.board request.Position with
    | none => none
    | some piece =>
      if R.color piece ≠ game.turn then none
      else
        match (R.takeMove piece game.board request.Move game.previousMove game.previousMover
            (if game.turn = Color.White then game.whiteKing else game.blackKing)
            request.PromoteTo).1 with
        | some _ => none
        | none =>
          match Game.MarshalBinary R (Game.moved R game request piece) with
          | Except.error _ => none
          | Except.ok key => some key

/-- The replies of the side to move, enumerated the way `Game.Move` does it
for the opponent at the end of a ply: `AllMoves` on the board, for the side to
move, with the last move, its mover and that side's king. -/
def Game.replies (R : Rules Board Piece) (game : Game Board Piece) :
    List (model.Position × model.Move) :=
  R.AllMoves game.board game.turn game.previousMove game.previousMover false
    (if game.turn = Color.White then game.whiteKing else game.blackKing)

/-- Whether the king of the side to move is threatened, asked the way
`Game.Move` asks it for the opponent at the end of a ply. -/
def Game.kingThreatened (R : Rules Board Piece) (game : Game Board Piece) : Bool :=
  R.isThreatened (if game.turn = Color.White then game.whiteKing else game.blackKing)
    game.board game.previousMove game.previousMover

/-- The invariant of a game in play: while the game is not over no draw is
recorded and no counter of `positionHistory` exceeds two. -/
def Game.InPlay (game : Game Board Piece) : Prop :=
  game.gameOver = false → game.result.Draw = false ∧ ∀ key, game.positionHistory key ≤ 2

/-- A sequence of `Move` calls on one game, failed calls included: the game
after the last call. -/
def Game.playAll (R : Rules Board Piece) (game : Game Board Piece) :
    List MoveRequest → Game Board Piece
  | [] => game
  | request :: rest => Game.playAll R (Game.Move R game request).2 rest

/-- The number of calls of a sequence of `Move` calls that returned `nil`,
that is the number of plies applied. -/
def Game.appliedPlies (R : Rules Board Piece) (game : Game Board Piece) :
    List MoveRequest → Nat
  | [] => 0
  | request :: rest =>
    (if (Game.Move R game request).1 = none then 1 else 0) +
      Game.appliedPlies R (Game.Move R game request).2 rest

/-- The keys whose counters a sequence of `Move` calls increments, in order. -/
def Game.recordedKeys (R : Rules Board Piece) (game : Game Board Piece) :
    List MoveRequest → List (List Nat)
  | [] => []
  | request :: rest =>
    (Game.recordedKey R game request).toList ++
      Game.recordedKeys R (Game.Move R game request).2 rest

/-- The key whose counter `createGame` sets to one: the encoding of the
literal game, whose turn is still the zero value; `none` when that encoding
fails. -/
def createdKey (R : Rules Board Piece) (board : Board) : Option (List Nat) :=
  match Game.MarshalBinary R (Game.literal R board) with
  | Except.error _ => none
  | Except.ok key => some key

/-- The games reached by the applied plies of a sequence of `Move` calls, in
order. -/
def Game.pliesReached (R : Rules Board Piece) (game : Game Board Piece) :
    List MoveRequest → List (Game Board Piece)
  | [] => []
  | request :: rest =>
    (if (Game.Move R game request).1 = none then [(Game.Move R game request).2] else []) ++
      Game.pliesReached R (Game.Move R game request).2 rest

/-- Whether `key` is the canonical encoding (`MarshalBinary`) of a game. -/
def Game.encodesTo (R : Rules Board Piece) (game : Game Board Piece) (key : List Nat) : Bool :=
  match Game.MarshalBinary R game with
  | Except.error _ => false
  | Except.ok bytes => decide (bytes = key)

/-- The number of times the position encoded by `key` has occurred in a game
created on `board` and played by a sequence of `Move` calls: the created game
counts once, and so does the game reached by each applied ply. -/
def occurrences (R : Rules Board Piece) (board : Board) (requests : List MoveRequest)
    (key : List Nat) : Nat :=
  ((createGame R board :: Game.pliesReached R (createGame R board) requests).filter
    fun game => Game.encodesTo R game key).length

/-! ## A small concrete rule set

Pieces are told apart by a number; any displacement that stays on the board
and does not land on a piece of the mover's colour is accepted, and a piece of
the other colour on the target square is captured.  A side can reply as long
as it has a piece other than its king, and a king is threatened when a piece
of the other colour stands next to it. -/

/-- A piece of the small rule set. -/
structure DemoPiece where
  id : Nat
  color : Color
  deriving DecidableEq, Repr

/-- A board of the small rule set: the occupied squares. -/
abbrev DemoBoard : Type := List (Position × DemoPiece)

/-- The piece on a square of a `DemoBoard`. -/
def demoPieceAt (b : DemoBoard) (p : Position) : Option DemoPiece :=
  (b.find? fun entry => entry.1 = p).map fun entry => entry.2

/-- The square a piece stands on. -/
def demoSquareOf (b : DemoBoard) (piece : DemoPiece) : Option Position :=
  (b.find? fun entry => entry.2 = piece).map fun entry => entry.1

/-- The square reached from `p` by the displacement `m`, when on the board. -/
def demoShift (p : Position) (m : Move) : Option Position :=
  let f : Int := (p.File.val : Int) + m.X
  let r : Int := (p.Rank.val : Int) + m.Y
  if 0 ≤ f ∧ f < 8 ∧ 0 ≤ r ∧ r < 8 then
    some { File := Fin.ofNat f.toNat, Rank := Fin.ofNat r.toNat }
  else none

/-- Moving a piece in the small rule set. -/
def demoTakeMove (piece : DemoPiece) (b : DemoBoard) (move : Move) (_previousMove : Move)
    (_previousMover _king : Option DemoPiece) (_promoteTo : Option PieceType) :
    Option Error × DemoBoard :=
  match demoSquareOf b piece with
  | none => (some (Error.New "Piece is not on the board"), b)
  | some src =>
    match demoShift src move with
    | none => (some (Error.New "Invalid move"), b)
    | some target =>
      if (demoPieceAt b target).map (fun other => other.color) = some piece.color then
        (some (Error.New "Invalid move"), b)
      else
        (none, (target, piece) :: b.filter fun entry => entry.1 ≠ src ∧ entry.1 ≠ target)

/-- The replies of a side in the small rule set: one for each of its pieces
other than its king. -/
def demoAllMoves (b : DemoBoard) (color : Color) (_previousMove : Move)
    (_previousMover : Option DemoPiece) (_flag : Bool) (king : Option DemoPiece) :
    List (Position × Move) :=
  (b.filter fun entry => entry.2.color = color ∧ some entry.2 ≠ king).map
    fun entry => (entry.1, { X := 0, Y := 0 })

/-- Two squares next to each other (a king's step apart). -/
def demoAdjacent (p q : Position) : Bool :=
  decide (p ≠ q ∧ p.File.val ≤ q.File.val + 1 ∧ q.File.val ≤ p.File.val + 1 ∧
    p.Rank.val ≤ q.Rank.val + 1 ∧ q.Rank.val ≤ p.Rank.val + 1)

/-- A king is threatened in the small rule set when a piece of the other
colour stands next to it. -/
def demoIsThreatened (king : Option DemoPiece) (b : DemoBoard) (_previousMove : Move)
    (_previousMover : Option DemoPiece) : Bool :=
  match king with
  | none => false
  | some k =>
    match demoSquareOf b k with
    | none => false
    | some at_ => b.any fun entry => decide (entry.2.color ≠ k.color) && demoAdjacent entry.1 at_

/-- The byte written for a colour in the small rule set. -/
def demoWriteColor : Color → Except Error (List Nat)
  | Color.Black => Except.ok [0]
  | Color.White => Except.ok [1]

/-- The bytes of a piece in the small rule set: its number and its square. -/
def demoPieceMarshalBinary (piece : DemoPiece) (b : DemoBoard) (_previousMove : Move)
    (_previousMover _king : Option DemoPiece) : Except Error (List Nat) :=
  match demoSquareOf b piece with
  | none => Except.error (Error.New "Piece is not on the board")
  | some at_ => Except.ok [piece.id, at_.File.val, at_.Rank.val]

/-- The white king of the small rule set. -/
def demoWhiteKing : DemoPiece := { id := 1, color := Color.White }

/-- The black king of the small rule set. -/
def demoBlackKing : DemoPiece := { id := 2, color := Color.Black }

/-- The other white piece of the small rule set. -/
def demoWhiteRook : DemoPiece := { id := 3, color := Color.White }

/-- The other black piece of the small rule set. -/
def demoBlackRook : DemoPiece := { id := 4, color := Color.Black }

/-- The initial board of the small rule set: the kings on the e-file, a white
piece on a1 and a black piece on d8, next to the black king. -/
def demoBoard : DemoBoard :=
  [ ({ File := 4, Rank := 0 }, demoWhiteKing), ({ File := 4, Rank := 7 }, demoBlackKing),
    ({ File := 0, Rank := 0 }, demoWhiteRook), ({ File := 3, Rank := 7 }, demoBlackRook) ]

/-- The small rule set; the zero value of `Color` is taken to be `Black`. -/
def demoRules : Rules DemoBoard DemoPiece where
  zeroColor := Color.Black
  pieceAt := demoPieceAt
  color := fun piece => piece.color
  takeMove := demoTakeMove
  AllMoves := demoAllMoves
  isThreatened := demoIsThreatened
  writeColor := demoWriteColor
  pieceMarshalBinary := demoPieceMarshalBinary
  NewFullBoard := demoBoard
  NewBoardNoPawns := demoBoard

/-- The small rule set with a piece encoder that always fails. -/
def demoRulesNoEncoding : Rules DemoBoard DemoPiece :=
  { demoRules with
    pieceMarshalBinary := fun _ _ _ _ _ => Except.error (Error.New "Cannot encode piece") }

/-- A request to move the piece on square (`file`, `rank`) by (`x`, `y`). -/
def demoRequest (file rank : Fin 8) (x y : Int) : MoveRequest :=
  { Position := { File := file, Rank := rank }, Move := { X := x, Y := y }, PromoteTo := none }

/-- Seven plies of the small rule set in which both sides shuffle a piece back
and forth: after the fourth ply the starting position is back. -/
def demoShuffle : List MoveRequest :=
  [ demoRequest 0 0 0 1, demoRequest 3 7 0 (-1), demoRequest 0 1 0 (-1), demoRequest 3 6 0 1,
    demoRequest 0 0 0 1, demoRequest 3 7 0 (-1), demoRequest 0 1 0 (-1) ]

end model

/-!
# gochess: the match orchestrator (`internal/server/backend/match/match.go`)

A match is driven by goroutines that talk over channels.  The embedding keeps
the state that the goroutines share (the game, the standing draw offer, whether
the channel `gameOver` is closed) and turns each handler into a function from
the state before to the state after and the list of channel operations the
handler performs, in program order.  A handler runs as one step: the
interleaving of handlers is not modelled.

`Player`, `RequestAsync` and `ResponseAsync` are declared outside `match.go`;
their fields here are those that `match.go` uses, in the order in which the
sibling package `internal/server/match` declares them.
-/

namespace matchserver

open model

/-- The two players of a match, by the field of `Match` that points to them.
A `*Player` that a match handles is one of its two players, which are
distinct objects, or nil. -/
inductive Seat where
  | black
  | white
  deriving DecidableEq, Repr

/-- The other player of the match. -/
def Seat.other : Seat → Seat
  | Seat.black => Seat.white
  | Seat.white => Seat.black

/-- Modelled from the spec: `RequestAsync`, "AsyncRequest{resign: bool,
requestToDraw: bool}", declared outside `match.go`. -/
structure RequestAsync where
  RequestToDraw : Bool
  Resign : Bool
  deriving DecidableEq, Repr

/-- Modelled from the spec: `ResponseAsync`, "AsyncResponse{gameOver,
drawOffered, draw, resignation, timeout, winnerName}", declared outside
`match.go`; `RequestToDraw` is the draw-offered flag, and the order of the
fields is the one the positional literals of `match.go` rely on. -/
structure ResponseAsync where
  GameOver : Bool
  RequestToDraw : Bool
  Draw : Bool
  Resignation : Bool
  Timeout : Bool
  Winner : String
  deriving DecidableEq, Repr

/-- Modelled from the spec: `Player`, "identity string, assigned color,
cumulative elapsed time" and its channels, declared outside `match.go`; the
channels appear as the `Effect`s of the handlers. -/
structure Player where
  name : String
  color : Color
  elapsedMs : Int
  deriving DecidableEq, Repr

/-- Modelled from the spec: `ResponseSync`, "SyncResponse{success: bool,
elapsedMs, opponentElapsedMs}", declared outside `match.go`. -/
structure ResponseSync where
  MoveSuccess : Bool
  ElapsedMs : Int
  ElapsedMsOpponent : Int
  deriving DecidableEq, Repr

/-- A channel operation performed by a handler.

* `broadcast recipient response received`: the goroutine that `handleGameOver`
  starts and waits for, offering `response` on the `ResponseChanAsync` of
  `recipient` for at most five seconds; `received` tells whether the player
  took it in time;
* `notify recipient response`: the goroutine that `handleAsyncRequests` starts
  and does not wait for, offering `response` on the `ResponseChanAsync` of
  `recipient` until the match is over;
* `closeGameOver`: `close(match.gameOver)`;
* `respondSync recipient response`: a send of `response` on the
  `ResponseChanSync` of `recipient`, by `handleTurn`;
* `opponentPlayedMove recipient request`: a send of `request` on the
  `OpponentPlayedMove` channel of `recipient`, by `handleTurn`. -/
inductive Effect where
  | broadcast (recipient : Seat) (response : ResponseAsync) (received : Bool)
  | notify (recipient : Seat) (response : ResponseAsync)
  | closeGameOver
  | respondSync (recipient : Seat) (response : ResponseSync)
  | opponentPlayedMove (recipient : Seat) (request : MoveRequest)
  deriving DecidableEq, Repr

/-- Where `handleTurn` stands after a step: blocked in the `select` that
receives from the `requestChanSync` of `player` (or from `gameOver`), or
returned. -/
inductive TurnStatus where
  | awaiting (player : Seat)
  | returned
  deriving DecidableEq, Repr

/-- The struct `Match` (without its mutex): `gameOver` tells whether the
channel of that name is closed, `requestedDraw` is the pointer to the player
with a standing draw offer. -/
structure Match (Board Piece : Type) where
  black : Player
  white : Player
  game : Game Board Piece
  gameOver : Bool
  maxTimeMs : Int
  requestedDraw : Option Seat

variable {Board Piece : Type}

/-- The player a seat points to. -/
def Match.player (m : Match Board Piece) : Seat → Player
  | Seat.black => m.black
  | Seat.white => m.white

/-- The function `NewMatch`. -/
def NewMatch (R : Rules Board Piece) (black white : Player) (maxTimeMs : Int) :
    Match Board Piece :=
  let black := { black with color := Color.Black }
  let white := { white with color := Color.White }
  let renamed := decide (black.name = white.name)
  { black := if renamed then { black with name := black.name ++ "_black" } else black
    white := if renamed then { white with name := white.name ++ "_white" } else white
    game := NewGame R
    gameOver := false
    maxTimeMs := maxTimeMs
    requestedDraw := none }

/-- The method `Match.GetRequestedDraw`. -/
def Match.GetRequestedDraw (m : Match Board Piece) : Option Seat := m.requestedDraw

/-- The method `Match.SetRequestedDraw`. -/
def Match.SetRequestedDraw (m : Match Board Piece) (player : Option Seat) : Match Board Piece :=
  { m with requestedDraw := player }

/-- The method `Match.handleGameOver`.  When the channel `gameOver` is already
closed nothing happens; otherwise the result is written to the game, the
response is offered to both players, black first, and the channel is closed.
`received` tells, for each player, whether the response was taken before the
five seconds ran out; the state afterwards does not depend on it. -/
def Match.handleGameOver (m : Match Board Piece) (received : Seat → Bool)
    (draw resignation timeout : Bool) (winner : Seat) : Match Board Piece × List Effect :=
  if m.gameOver then (m, [])
  else
    let game := Game.SetGameResult m.game (m.player winner).color draw
    let winnerName := if draw then "" else (m.player winner).name
    let response : ResponseAsync :=
      { GameOver := true, RequestToDraw := false, Draw := draw, Resignation := resignation,
        Timeout := timeout, Winner := winnerName }
    ({ m with game := game, gameOver := true },
      [Effect.broadcast Seat.black response (received Seat.black),
       Effect.broadcast Seat.white response (received Seat.white),
       Effect.closeGameOver])

/-- One iteration of the loop of `Match.handleAsyncRequests`, from the point
where the `select` has received `request` on the `RequestChanAsync` of
`sender`: `player` is the sender and `opponent` the other player. -/
def Match.handleAsyncRequest (m : Match Board Piece) (received : Seat → Bool) (sender : Seat)
    (request : RequestAsync) : Match Board Piece × List Effect :=
  let player := sender
  let opponent := sender.other
  if request.Resign then
    Match.handleGameOver m received false true false opponent
  else if request.RequestToDraw then
    if Match.GetRequestedDraw m = some opponent then
      Match.handleGameOver m received true false false opponent
    else if Match.GetRequestedDraw m = some player then
      (Match.SetRequestedDraw m none,
        [Effect.notify opponent
          { GameOver := false, RequestToDraw := true, Draw := false, Resignation := false,
            Timeout := false, Winner := "" }])
    else
      (Match.SetRequestedDraw m (some player),
        [Effect.notify opponent
          { GameOver := false, RequestToDraw := true, Draw := false, Resignation := false,
            Timeout := false, Winner := "" }])
  else (m, [])

/-- The method `Match.PlayerName`. -/
def Match.PlayerName (m : Match Board Piece) (color : Color) : String :=
  if color = Color.Black then m.black.name else m.white.name

/-- The method `Match.MaxTimeMs`. -/
def Match.MaxTimeMs (m : Match Board Piece) : Int := m.maxTimeMs

/-- The player whose move `handleTurn` waits for: black when it is Black's
turn, white otherwise.  The opponent is the other player. -/
def Match.turnPlayer (m : Match Board Piece) : Seat :=
  if Game.Turn m.game ≠ Color.Black then Seat.white else Seat.black

/-- The closure returned by `Match.handleTimeout(opponent)`, run when the turn
timer fires.  `OnlyKing` is the method `Game.OnlyKing`, which is declared
outside `game.go` and taken as a parameter. -/
def Match.handleTimeout (OnlyKing : Game Board Piece → Color → Bool) (m : Match Board Piece)
    (received : Seat → Bool) (opponent : Seat) : Match Board Piece × List Effect :=
  let onlyKing :=
    if (m.player opponent).color = Color.White then OnlyKing m.game Color.White
    else OnlyKing m.game Color.Black
  if onlyKing then Match.handleGameOver m received true false true opponent
  else Match.handleGameOver m received false false true opponent

/-- A value of Go's `int64` after an arithmetic operation: the integer
reduced to the range of two's complement on 64 bits. -/
def int64 (x : Int) : Int :=
  (x + 9223372036854775808) % 18446744073709551616 - 9223372036854775808

/-- The match with the player of a seat replaced. -/
def Match.setPlayer (m : Match Board Piece) (seat : Seat) (p : Player) : Match Board Piece :=
  match seat with
  | Seat.black => { m with black := p }
  | Seat.white => { m with white := p }

/-- The method `Match.handleTurn` from the point where a `select` has received
`request` on the `requestChanSync` of `player`, up to the next such `select`
or the return: one pass through the body of the retry loop and, when the move
is applied, the rest of the function.

* `preempted`: in the `select` that sends the failure response, whether the
  case `<-match.gameOver` is taken; that case is only ready once the channel
  is closed;
* `stopped`: the value of `timer.Stop()`, true when the turn timer is disarmed
  before it fires;
* `elapsed`: the value of `time.Since(turnStart).Milliseconds()`;
* `received`: as for `handleGameOver`. -/
def Match.handleTurnRequest (R : Rules Board Piece) (m : Match Board Piece)
    (received : Seat → Bool) (preempted stopped : Bool) (elapsed : Int) (player : Seat)
    (request : MoveRequest) : Match Board Piece × List Effect × TurnStatus :=
  let opponent := player.other
  let moved := Game.Move R m.game request
  let m₁ : Match Board Piece := { m with game := moved.2 }
  match moved.1 with
  | some _ =>
    if m₁.gameOver && preempted then (m₁, [], TurnStatus.returned)
    else
      (m₁,
        [Effect.respondSync player { MoveSuccess := false, ElapsedMs := 0, ElapsedMsOpponent := 0 }],
        TurnStatus.awaiting player)
  | none =>
    if !stopped then (m₁, [], TurnStatus.returned)
    else
      let m₂ := Match.SetRequestedDraw m₁ none
      let mover : Player :=
        { m₂.player player with elapsedMs := int64 ((m₂.player player).elapsedMs + elapsed) }
      let m₃ := Match.setPlayer m₂ player mover
      let sent : List Effect :=
        [Effect.respondSync player
          { MoveSuccess := true, ElapsedMs := (m₃.player player).elapsedMs,
            ElapsedMsOpponent := (m₃.player opponent).elapsedMs },
         Effect.opponentPlayedMove opponent request]
      if Game.GameOver m₃.game then
        let result := Game.Result m₃.game
        let winner := if result.Winner = Color.White then Seat.white else Seat.black
        let ended := Match.handleGameOver m₃ received result.Draw false false winner
        (ended.1, sent ++ ended.2, TurnStatus.returned)
      else (m₃, sent, TurnStatus.returned)

/-- Modelled from the spec: `Game.OnlyKing` for the small rule set, "a side
holds only a king": every piece of the colour on the board is that colour's
king. -/
def demoOnlyKing (game : Game DemoBoard DemoPiece) (color : Color) : Bool :=
  game.board.all fun entry =>
    decide (entry.2.color ≠ color) ||
      decide (some entry.2 = if color = Color.White then game.whiteKing else game.blackKing)

/-- A board of the small rule set with the two kings only. -/
def demoKingsBoard : DemoBoard :=
  [ ({ File := 4, Rank := 0 }, demoWhiteKing), ({ File := 4, Rank := 7 }, demoBlackKing) ]

/-- A match of the small rule set between two players. -/
def demoMatch : Match DemoBoard DemoPiece :=
  NewMatch demoRules { name := "ann", color := Color.Black, elapsedMs := 0 }
    { name := "bob", color := Color.Black, elapsedMs := 0 } 1200000

/-- A match of the small rule set on the board with the two kings only, White
to move. -/
def demoKingsMatch : Match DemoBoard DemoPiece :=
  { demoMatch with game := createGame demoRules demoKingsBoard }

/-- The request that offers a draw. -/
def drawRequest : RequestAsync := { RequestToDraw := true, Resign := false }

/-- The request that resigns. -/
def resignRequest : RequestAsync := { RequestToDraw := false, Resign := true }

/-- The notification of a draw offer. -/
def drawOffered : ResponseAsync :=
  { GameOver := false, RequestToDraw := true, Draw := false, Resignation := false,
    Timeout := false, Winner := "" }

end matchserver

/-!
# gochess: the matchmaking pool (`internal/server/match`, `internal/server/server.go`)

The two older packages that pair waiting players.  A slot (`matchAndPlay`)
reads players from the intake channel one after the other; the embedding folds
the loop body over the list of players delivered to the slot.  A player is a
value: the players delivered to a slot are distinct objects, so a write through
one pointer is not seen through another.  The call `(&match).play()`, which
runs the match to its end and writes only the game and the elapsed times, is
not represented.  The registry `liveMatches` holds the addresses of the live
matches; the match generated by a slot gets the number of matches the slot
generated before as its address.
-/

namespace servermatch

open model

/-- The struct `Player` of `matchserver.go`, channels apart. -/
structure Player where
  name : String
  color : Color
  elapsedMs : Int
  matchedOpponent : String
  deriving DecidableEq, Repr

/-- The function `NewPlayer` of `matchserver.go`. -/
def NewPlayer (name : String) : Player :=
  { name := name, color := Color.Black, elapsedMs := 0, matchedOpponent := "" }

/-- The struct `Match` of `match.go` in this package: `gameOver` tells whether
the channel of that name is closed. -/
structure Match (Board Piece : Type) where
  black : Player
  white : Player
  game : Game Board Piece
  gameOver : Bool
  maxTimeMs : Int
  requestedDraw : Option matchserver.Seat

variable {Board Piece M : Type}

/-- The function `newMatch` of `match.go` in this package. -/
def newMatch (R : Rules Board Piece) (black white : Player) (maxTime : Int) :
    Match Board Piece :=
  let black := { black with color := Color.Black }
  let white := { white with color := Color.White }
  let renamed := decide (black.name = white.name)
  let black := if renamed then { black with name := black.name ++ "_black" } else black
  let white := if renamed then { white with name := white.name ++ "_white" } else white
  { black := { black with elapsedMs := 0 }
    white := { white with elapsedMs := 0 }
    game := NewGame R
    gameOver := false
    maxTimeMs := maxTime
    requestedDraw := none }

/-- The function `DefaultMatchGenerator` of this package, a `MatchGenerator`:
the two players as the call leaves them, in the order of the arguments, and
the match. -/
def DefaultMatchGenerator (R : Rules Board Piece) (black white : Player) :
    Player × Player × Match Board Piece :=
  ((newMatch R black white 1200000).black, (newMatch R black white 1200000).white,
    newMatch R black white 1200000)

/-- The loop of `MatchingServer.removeMatch` over the indices still to visit.
`liveMatches` is the local slice as the loop reads it, `registry` the slice
`matchingServer.liveMatches`; both share one array, so the assignment to
`liveMatches[i]` shows in `registry`, while the assignment of the shortened
slice to the local variable does not. -/
def MatchingServer.removeMatchLoop (liveMatches : List Nat) (matchToRemove : Nat) :
    List Nat → List Nat → List Nat
  | [], registry => registry
  | i :: rest, registry =>
    if liveMatches[i]? = some matchToRemove then
      if liveMatches.length = 1 then
        MatchingServer.removeMatchLoop liveMatches matchToRemove rest []
      else
        registry.set i (liveMatches.getD (liveMatches.length - 1) matchToRemove)
    else MatchingServer.removeMatchLoop liveMatches matchToRemove rest registry

/-- The method `MatchingServer.removeMatch`, on the registry: the value of
`matchingServer.liveMatches` after the call.  The method of the same name in
`internal/server/server.go` has the same body. -/
def MatchingServer.removeMatch (registry : List Nat) (matchToRemove : Nat) : List Nat :=
  MatchingServer.removeMatchLoop registry matchToRemove (List.range registry.length) registry

/-- The method `MatchingServer.LiveMatches`, on the registry. -/
def MatchingServer.LiveMatches (registry : List Nat) : List Nat := registry

/-- The state of a slot running `matchAndPlay`: its two local variables, the
registry, and the matches generated so far with their two players as the
generator left them. -/
structure Slot (M : Type) where
  player1 : Option Player
  player2 : Option Player
  liveMatches : List Nat
  generated : List (Player × Player × M)

/-- The body of the loop of `MatchingServer.matchAndPlay` for one player
received from the intake. -/
def MatchingServer.matchAndPlayStep (matchGenerator : Player → Player → Player × Player × M)
    (slot : Slot M) (player : Player) : Slot M :=
  match slot.player1 with
  | none => { slot with player1 := some player }
  | some player1 =>
    match slot.player2 with
    | none =>
      let player2 := player
      let player1 := { player1 with matchedOpponent := player2.name }
      let player2 := { player2 with matchedOpponent := player1.name }
      let made := matchGenerator player1 player2
      let address := slot.generated.length
      let live := slot.liveMatches ++ [address]
      { player1 := none
        player2 := none
        liveMatches := MatchingServer.removeMatch live address
        generated := slot.generated ++ [made] }
    | some _ => slot

/-- The method `MatchingServer.matchAndPlay` of a fresh server on the players
delivered to the slot, in order. -/
def MatchingServer.matchAndPlay (matchGenerator : Player → Player → Player × Player × M)
    (players : List Player) : Slot M :=
  players.foldl (MatchingServer.matchAndPlayStep matchGenerator)
    { player1 := none, player2 := none, liveMatches := [], generated := [] }

/-- The consecutive pairs of a list: first with second, third with fourth, ... -/
def pairsOf {α : Type} : List α → List (α × α)
  | a :: b :: rest => (a, b) :: pairsOf rest
  | _ => []

/-- The last element of a list of odd length, which `pairsOf` leaves out. -/
def unpaired {α : Type} : List α → Option α
  | _ :: _ :: rest => unpaired rest
  | [a] => some a
  | [] => none

end servermatch

namespace server

variable {P M : Type}

/-- The state of a slot running `matchAndPlay` of `server.go`: its two local
variables, the registry and the matches made so far.  `P` stands for
`*Player`. -/
structure Slot (P M : Type) where
  player1 : Option P
  player2 : Option P
  liveMatches : List Nat
  generated : List M

/-- The method `MatchingServer.removeMatch` of `server.go`: the same body as
in `internal/server/match`, with the lock taken by the caller. -/
def MatchingServer.removeMatch (registry : List Nat) (matchToRemove : Nat) : List Nat :=
  servermatch.MatchingServer.removeMatch registry matchToRemove

/-- The body of the loop of `MatchingServer.matchAndPlay` of `server.go` for
one player received from the channel.  `newMatch` is declared outside
`server.go` and taken as a parameter.  The last statement of the second branch
assigns nil to `player1` and to the loop variable `player`; `player2` keeps
its value. -/
def MatchingServer.matchAndPlayStep (newMatch : P → P → M) (slot : Slot P M) (player : P) :
    Slot P M :=
  match slot.player1 with
  | none => { slot with player1 := some player }
  | some player1 =>
    match slot.player2 with
    | none =>
      let player2 := player
      let made := newMatch player1 player2
      let address := slot.generated.length
      let live := slot.liveMatches ++ [address]
      { player1 := none
        player2 := some player2
        liveMatches := MatchingServer.removeMatch live address
        generated := slot.generated ++ [made] }
    | some _ => slot

/-- The method `MatchingServer.matchAndPlay` of `server.go` of a fresh server
on the players the slot receives, in order. -/
def MatchingServer.matchAndPlay (newMatch : P → P → M) (players : List P) : Slot P M :=
  players.foldl (MatchingServer.matchAndPlayStep newMatch)
    { player1 := none, player2 := none, liveMatches := [], generated := [] }

end server

/-!
# gochess: the session cache (`internal/server/frontend/ttlmap.go`)

The map is a function from keys to optional items; the clock reading
`time.Now().Unix()` is an argument of each operation.  The mutex is not
modelled.
-/

namespace gateway

open model

/-- The struct `item`: the map stores pointers to items, so an item in the
map changes only by an assignment through the stored pointer.  The pointer
`value` is an `Option`. -/
structure item where
  value : Option matchserver.Player
  lastAccess : Int
  deriving DecidableEq, Repr

/-- The struct `TTLMap` (without its mutex). -/
structure TTLMap where
  m : String → Option item

/-- The map of a `TTLMap` made by `NewTTLMap`. -/
def NewTTLMap : TTLMap := { m := fun _ => none }

/-- One pass of the garbage collection that `NewTTLMap` starts, at the tick
`now` (in seconds): every item with `now - lastAccess > maxTTL` is deleted. -/
def TTLMap.collect (maxTTL : Int) (t : TTLMap) (now : Int) : TTLMap :=
  { m := fun k =>
      match t.m k with
      | none => none
      | some it =>
        if matchserver.int64 (now - it.lastAccess) > maxTTL then none else some it }

/-- The method `TTLMap.Put` at clock reading `now`: the error, the map
afterwards, and the local variable `it` of the method as the call leaves it.
The item stored in the map is the one declared inside the `if`, with `value`
only; the assignment of `lastAccess` after the `if` goes to the variable `it`
declared before the `if`, which is not in the map. -/
def TTLMap.Put (t : TTLMap) (k : String) (v : matchserver.Player) (now : Int) :
    Option Error × TTLMap × item :=
  let it : item := { value := none, lastAccess := 0 }
  match t.m k with
  | none =>
    let stored : item := { value := some v, lastAccess := 0 }
    (none, { m := fun key => if key = k then some stored else t.m key },
      { it with lastAccess := now })
  | some _ =>
    (some (Error.New ("failed to put key: " ++ k ++ ", value: " ++ v.name)), t, it)

/-- The method `TTLMap.Get` at clock reading `now`: the value, the error and
the map afterwards. -/
def TTLMap.Get (t : TTLMap) (k : String) (now : Int) :
    Option matchserver.Player × Option Error × TTLMap :=
  match t.m k with
  | some it =>
    (it.value, none,
      { m := fun key => if key = k then some { it with lastAccess := now } else t.m key })
  | none => (none, some (Error.New "failed to get"), t)

end gateway

/-! ## Theorems about `Game.Move` -/

namespace model

variable {Board Piece : Type}

/-- The shape of a call of `Game.Move` that returns `nil`. -/
theorem Move_applied (R : Rules Board Piece) (game : Game Board Piece) (request : MoveRequest)
    (h : (Game.Move R game request).1 = none) :
    ∃ piece key, game.gameOver = false ∧
      R.pieceAt game.board request.Position = some piece ∧
      R.color piece = game.turn ∧
      Game.recordedKey R game request = some key ∧
      (Game.Move R game request).2 =
        { Game.applyOutcome
            { Game.moved R game request piece with
              positionHistory := fun k =>
                if k = key then (game.positionHistory key + 1) % 256
                else game.positionHistory k }
            (decide ((R.AllMoves (Game.moved R game request piece).board
              (getOppositeColor game.turn) request.Move (some piece) false
              (if game.turn = Color.White then game.blackKing else game.whiteKing)).length = 0))
            (R.isThreatened (if game.turn = Color.White then game.blackKing else game.whiteKing)
              (Game.moved R game request piece).board request.Move (some piece))
            (decide ((game.positionHistory key + 1) % 256 > 2)) with
          previousMove := request.Move
          previousMover := some piece
          turn := getOppositeColor game.turn } := by
  obtain ⟨board, turn, gameOver, result, previousMove, previousMover, blackKing, whiteKing,
    positionHistory⟩ := game
  unfold Game.Move at h ⊢
  unfold Game.recordedKey
  simp only at h ⊢
  cases gameOver with
  | true => simp at h
  | false =>
    cases hPiece : R.pieceAt board request.Position with
    | none => simp [hPiece] at h
    | some piece =>
      by_cases hColor : R.color piece = turn
      · subst hColor
        cases hTake : (R.takeMove piece board request.Move previousMove
            previousMover (if R.color piece = Color.White then whiteKing else blackKing)
            request.PromoteTo).1 with
        | some err => simp [hPiece, hTake] at h
        | none =>
          cases hKey : Game.MarshalBinary R (Game.moved R ⟨board, R.color piece, false, result,
              previousMove, previousMover, blackKing, whiteKing, positionHistory⟩ request piece) with
          | error err =>
            simp only [Game.moved] at hKey
            simp [hPiece, hTake, Game.updatePositionHistory, hKey] at h
          | ok key =>
            refine ⟨piece, key, rfl, rfl, rfl, ?_, ?_⟩
            · simp [hTake, hKey]
            · simp only [Game.moved] at hKey
              simp [hPiece, hTake, Game.updatePositionHistory, hKey, Game.moved]
      · simp [hPiece, hColor] at h

/-- The shape of a call of `Game.Move` that returns an error: either nothing
was written, or only the board, by `takeMove`. -/
theorem Move_failed (R : Rules Board Piece) (game : Game Board Piece) (request : MoveRequest)
    (h : (Game.Move R game request).1 ≠ none) :
    (Game.Move R game request).2 = game ∨
    ∃ piece, R.pieceAt game.board request.Position = some piece ∧
      (Game.Move R game request).2 = Game.moved R game request piece := by
  obtain ⟨board, turn, gameOver, result, previousMove, previousMover, blackKing, whiteKing,
    positionHistory⟩ := game
  unfold Game.Move at h ⊢
  simp only at h ⊢
  cases gameOver with
  | true => simp
  | false =>
    cases hPiece : R.pieceAt board request.Position with
    | none => simp
    | some piece =>
      by_cases hColor : R.color piece = turn
      · subst hColor
        right
        refine ⟨piece, rfl, ?_⟩
        cases hTake : (R.takeMove piece board request.Move previousMove
            previousMover (if R.color piece = Color.White then whiteKing else blackKing)
            request.PromoteTo).1 with
        | some err => simp [hTake, Game.moved]
        | none =>
          cases hKey : Game.MarshalBinary R (Game.moved R ⟨board, R.color piece, false, result,
              previousMove, previousMover, blackKing, whiteKing, positionHistory⟩ request piece) with
          | error err =>
            simp only [Game.moved] at hKey
            simp [hTake, Game.updatePositionHistory, hKey, Game.moved]
          | ok key =>
            simp only [Game.moved] at hKey
            simp [hPiece, hTake, Game.updatePositionHistory, hKey] at h
      · simp [hColor]

/-- The opposite colour is another colour. -/
theorem getOppositeColor_ne (color : Color) : getOppositeColor color ≠ color := by
  cases color <;> simp [getOppositeColor]

/-- The opposite of the opposite colour is the colour. -/
theorem getOppositeColor_twice (color : Color) :
    getOppositeColor (getOppositeColor color) = color := by
  cases color <;> simp [getOppositeColor]

/-- Ending the game does not touch the turn. -/
theorem applyOutcome_turn (game : Game Board Piece) (a b c : Bool) :
    (Game.applyOutcome game a b c).turn = game.turn := by
  unfold Game.applyOutcome
  split
  · rfl
  · split <;> rfl

/-- An applied ply passes the turn. -/
theorem Move_turn_applied (R : Rules Board Piece) (game : Game Board Piece)
    (request : MoveRequest) (h : (Game.Move R game request).1 = none) :
    (Game.Move R game request).2.turn = getOppositeColor game.turn := by
  obtain ⟨piece, key, -, -, -, -, hEq⟩ := Move_applied R game request h
  rw [hEq]

/-- A rejected call keeps the turn. -/
theorem Move_turn_failed (R : Rules Board Piece) (game : Game Board Piece)
    (request : MoveRequest) (h : (Game.Move R game request).1 ≠ none) :
    (Game.Move R game request).2.turn = game.turn := by
  rcases Move_failed R game request h with hEq | ⟨piece, -, hEq⟩
  · rw [hEq]
  · rw [hEq]; rfl

/-- The turn after a sequence of calls, by the parity of the applied plies. -/
theorem playAll_turn (R : Rules Board Piece) (requests : List MoveRequest) :
    ∀ game : Game Board Piece,
      (Game.playAll R game requests).turn =
        if Game.appliedPlies R game requests % 2 = 0 then game.turn
        else getOppositeColor game.turn := by
  induction requests with
  | nil => intro game; simp [Game.playAll, Game.appliedPlies]
  | cons request rest ih =>
    intro game
    simp only [Game.playAll, Game.appliedPlies]
    rw [ih]
    by_cases h : (Game.Move R game request).1 = none
    · rw [Move_turn_applied R game request h, getOppositeColor_twice]
      simp only [h, if_true]
      by_cases hPar : Game.appliedPlies R (Game.Move R game request).2 rest % 2 = 0
      · have : (1 + Game.appliedPlies R (Game.Move R game request).2 rest) % 2 ≠ 0 := by omega
        simp [hPar, this]
      · have : (1 + Game.appliedPlies R (Game.Move R game request).2 rest) % 2 = 0 := by omega
        simp [hPar, this]
    · rw [Move_turn_failed R game request h]
      simp [h]

/-- A created game has White to move. -/
theorem createGame_turn (R : Rules Board Piece) (board : Board) :
    (createGame R board).turn = Color.White := rfl

/-- Ending the game touches only `gameOver` and `result`. -/
theorem applyOutcome_frame (game : Game Board Piece) (a b c : Bool) :
    (Game.applyOutcome game a b c).board = game.board ∧
    (Game.applyOutcome game a b c).blackKing = game.blackKing ∧
    (Game.applyOutcome game a b c).whiteKing = game.whiteKing ∧
    (Game.applyOutcome game a b c).positionHistory = game.positionHistory := by
  unfold Game.applyOutcome
  split
  · exact ⟨rfl, rfl, rfl, rfl⟩
  · split <;> exact ⟨rfl, rfl, rfl, rfl⟩

/-- The king handed to the reply enumeration is the king of the side that is
to move after the ply. -/
theorem enemyKing_eq (game : Game Board Piece) :
    (if getOppositeColor game.turn = Color.White then game.whiteKing else game.blackKing) =
      (if game.turn = Color.White then game.blackKing else game.whiteKing) := by
  cases hTurn : game.turn <;> simp [getOppositeColor]

/-- The outcome written by `applyOutcome` depends on the game only through
`gameOver`, `result` and `turn`. -/
theorem applyOutcome_congr (g₁ g₂ : Game Board Piece) (a b c : Bool)
    (hOver : g₁.gameOver = g₂.gameOver) (hResult : g₁.result = g₂.result)
    (hTurn : g₁.turn = g₂.turn) :
    (Game.applyOutcome g₁ a b c).gameOver = (Game.applyOutcome g₂ a b c).gameOver ∧
    (Game.applyOutcome g₁ a b c).result = (Game.applyOutcome g₂ a b c).result := by
  unfold Game.applyOutcome
  split
  · simp [hResult, hTurn]
  · split
    · simp [hResult]
    · exact ⟨hOver, hResult⟩

/-- The replies of the side to move after an applied ply are the moves that
`Game.Move` enumerated for the opponent. -/
theorem Move_applied_replies (R : Rules Board Piece) (game : Game Board Piece)
    (request : MoveRequest) (piece : Piece) {inner : Game Board Piece} {a b c : Bool}
    (hEq : (Game.Move R game request).2 =
      { Game.applyOutcome inner a b c with
        previousMove := request.Move
        previousMover := some piece
        turn := getOppositeColor game.turn })
    (hInner : inner.board = (Game.moved R game request piece).board ∧
      inner.blackKing = game.blackKing ∧ inner.whiteKing = game.whiteKing) :
    Game.replies R (Game.Move R game request).2 =
      R.AllMoves (Game.moved R game request piece).board (getOppositeColor game.turn)
        request.Move (some piece) false
        (if game.turn = Color.White then game.blackKing else game.whiteKing) := by
  rw [hEq]
  obtain ⟨hBoard, hBlack, hWhite, -⟩ := applyOutcome_frame inner a b c
  simp only [Game.replies, hBoard, hBlack, hWhite, hInner.1, hInner.2.1, hInner.2.2]
  rw [enemyKing_eq]

/-- The threat on the king of the side to move after an applied ply is the
one `Game.Move` asked about. -/
theorem Move_applied_threatened (R : Rules Board Piece) (game : Game Board Piece)
    (request : MoveRequest) (piece : Piece) {inner : Game Board Piece} {a b c : Bool}
    (hEq : (Game.Move R game request).2 =
      { Game.applyOutcome inner a b c with
        previousMove := request.Move
        previousMover := some piece
        turn := getOppositeColor game.turn })
    (hInner : inner.board = (Game.moved R game request piece).board ∧
      inner.blackKing = game.blackKing ∧ inner.whiteKing = game.whiteKing) :
    Game.kingThreatened R (Game.Move R game request).2 =
      R.isThreatened (if game.turn = Color.White then game.blackKing else game.whiteKing)
        (Game.moved R game request piece).board request.Move (some piece) := by
  rw [hEq]
  obtain ⟨hBoard, hBlack, hWhite, -⟩ := applyOutcome_frame inner a b c
  simp only [Game.kingThreatened, hBoard, hBlack, hWhite, hInner.1, hInner.2.1, hInner.2.2]
  rw [enemyKing_eq]

/-- What an applied ply leaves behind, field by field. -/
theorem Move_applied_fields (R : Rules Board Piece) (game : Game Board Piece)
    (request : MoveRequest) (h : (Game.Move R game request).1 = none) :
    ∃ piece key, game.gameOver = false ∧
      R.pieceAt game.board request.Position = some piece ∧
      R.color piece = game.turn ∧
      Game.recordedKey R game request = some key ∧
      (Game.Move R game request).2.positionHistory =
        (fun k => if k = key then (game.positionHistory key + 1) % 256
          else game.positionHistory k) ∧
      (Game.Move R game request).2.gameOver =
        (Game.applyOutcome game
          (decide ((Game.replies R (Game.Move R game request).2).length = 0))
          (Game.kingThreatened R (Game.Move R game request).2)
          (decide ((game.positionHistory key + 1) % 256 > 2))).gameOver ∧
      (Game.Move R game request).2.result =
        (Game.applyOutcome game
          (decide ((Game.replies R (Game.Move R game request).2).length = 0))
          (Game.kingThreatened R (Game.Move R game request).2)
          (decide ((game.positionHistory key + 1) % 256 > 2))).result := by
  obtain ⟨piece, key, hOver, hPiece, hColor, hKey, hEq⟩ := Move_applied R game request h
  refine ⟨piece, key, hOver, hPiece, hColor, hKey, ?_, ?_, ?_⟩
  · rw [hEq]
    exact (applyOutcome_frame _ _ _ _).2.2.2
  · rw [Move_applied_replies R game request piece hEq ⟨rfl, rfl, rfl⟩,
      Move_applied_threatened R game request piece hEq ⟨rfl, rfl, rfl⟩]
    conv_lhs => rw [hEq]
    exact (applyOutcome_congr _ game _ _ _ (by rfl) (by rfl) (by rfl)).1
  · rw [Move_applied_replies R game request piece hEq ⟨rfl, rfl, rfl⟩,
      Move_applied_threatened R game request piece hEq ⟨rfl, rfl, rfl⟩]
    conv_lhs => rw [hEq]
    exact (applyOutcome_congr _ game _ _ _ (by rfl) (by rfl) (by rfl)).2

/-- `updatePositionHistory` writes `positionHistory` only. -/
theorem updatePositionHistory_frame (R : Rules Board Piece) (game : Game Board Piece) :
    (Game.updatePositionHistory R game).2 =
      { game with positionHistory := (Game.updatePositionHistory R game).2.positionHistory } := by
  unfold Game.updatePositionHistory
  split <;> rfl

/-- The counters after `updatePositionHistory`. -/
theorem updatePositionHistory_counters (R : Rules Board Piece) (game : Game Board Piece) :
    (Game.updatePositionHistory R game).2.positionHistory = game.positionHistory ∨
    ∃ key, Game.MarshalBinary R game = Except.ok key ∧
      (Game.updatePositionHistory R game).2.positionHistory =
        fun k => if k = key then (game.positionHistory key + 1) % 256
          else game.positionHistory k := by
  unfold Game.updatePositionHistory
  cases hKey : Game.MarshalBinary R game with
  | error err => left; rfl
  | ok key => right; exact ⟨key, rfl, rfl⟩

/-- A created game is in play. -/
theorem createGame_inPlay (R : Rules Board Piece) (board : Board) :
    Game.InPlay (createGame R board) := by
  intro _
  unfold createGame
  rw [updatePositionHistory_frame]
  refine ⟨rfl, fun key => ?_⟩
  show (Game.updatePositionHistory R (Game.literal R board)).2.positionHistory key ≤ 2
  rcases updatePositionHistory_counters R (Game.literal R board) with h | ⟨k, -, h⟩
  · rw [h]; simp [Game.literal]
  · rw [h]
    by_cases hk : key = k
    · simp [hk, Game.literal]
    · simp [hk, Game.literal]

/-- A call of `Game.Move` keeps a game in play. -/
theorem Move_inPlay (R : Rules Board Piece) (game : Game Board Piece) (request : MoveRequest)
    (hInv : Game.InPlay game) : Game.InPlay (Game.Move R game request).2 := by
  by_cases h : (Game.Move R game request).1 = none
  · obtain ⟨piece, key, hOver, -, -, -, hCount, hGameOver, hResult⟩ :=
      Move_applied_fields R game request h
    obtain ⟨hDraw, hLe⟩ := hInv hOver
    intro hAfter
    rw [hGameOver] at hAfter
    rw [hResult, hCount]
    revert hAfter
    unfold Game.applyOutcome
    split
    · simp
    · split
      · simp
      · rename_i hFirst hSecond
        intro _
        refine ⟨hDraw, fun k => ?_⟩
        simp only [Bool.or_eq_true, decide_eq_true_eq, not_or] at hSecond
        by_cases hk : k = key
        · simp only [hk, if_true]; omega
        · simp only [hk, if_false]; exact hLe k
  · rcases Move_failed R game request h with hEq | ⟨piece, -, hEq⟩
    · rw [hEq]; exact hInv
    · rw [hEq]; exact hInv

/-- Every sequence of calls keeps a game in play. -/
theorem playAll_inPlay (R : Rules Board Piece) (requests : List MoveRequest) :
    ∀ game : Game Board Piece, Game.InPlay game → Game.InPlay (Game.playAll R game requests) := by
  induction requests with
  | nil => intro game h; exact h
  | cons request rest ih =>
    intro game h
    exact ih _ (Move_inPlay R game request h)

/-- A call of `Game.Move` that returns an error records no key and leaves the
counters alone. -/
theorem Move_failed_counters (R : Rules Board Piece) (game : Game Board Piece)
    (request : MoveRequest) (h : (Game.Move R game request).1 ≠ none) :
    Game.recordedKey R game request = none ∧
    (Game.Move R game request).2.positionHistory = game.positionHistory := by
  refine ⟨?_, ?_⟩
  · cases hKey : Game.recordedKey R game request with
    | none => rfl
    | some key =>
      exfalso
      apply h
      obtain ⟨board, turn, gameOver, result, previousMove, previousMover, blackKing, whiteKing,
        positionHistory⟩ := game
      unfold Game.recordedKey at hKey
      unfold Game.Move
      simp only at hKey ⊢
      cases gameOver with
      | true => simp at hKey
      | false =>
        cases hPiece : R.pieceAt board request.Position with
        | none => simp [hPiece] at hKey
        | some piece =>
          by_cases hColor : R.color piece = turn
          · subst hColor
            cases hTake : (R.takeMove piece board request.Move previousMove
                previousMover (if R.color piece = Color.White then whiteKing else blackKing)
                request.PromoteTo).1 with
            | some err => simp [hPiece, hTake] at hKey
            | none =>
              cases hEnc : Game.MarshalBinary R (Game.moved R ⟨board, R.color piece, false,
                  result, previousMove, previousMover, blackKing, whiteKing, positionHistory⟩
                  request piece) with
              | error err => simp [hPiece, hTake, hEnc] at hKey
              | ok k =>
                simp only [Game.moved] at hEnc
                simp [hTake, Game.updatePositionHistory, hEnc]
          · simp [hPiece, hColor] at hKey
  · rcases Move_failed R game request h with hEq | ⟨piece, -, hEq⟩
    · rw [hEq]
    · rw [hEq]; rfl

/-- The counters after a sequence of calls on a game in play: each recorded
key adds one to its counter. -/
theorem playAll_counters (R : Rules Board Piece) (requests : List MoveRequest)
    (key : List Nat) :
    ∀ game : Game Board Piece, Game.InPlay game →
      (Game.playAll R game requests).positionHistory key =
        game.positionHistory key + (Game.recordedKeys R game requests).count key := by
  induction requests with
  | nil => intro game _; simp [Game.playAll, Game.recordedKeys]
  | cons request rest ih =>
    intro game hInv
    simp only [Game.playAll, Game.recordedKeys, List.count_append]
    rw [ih _ (Move_inPlay R game request hInv)]
    by_cases h : (Game.Move R game request).1 = none
    · obtain ⟨piece, k, hOver, -, -, hKey, hCount, -, -⟩ := Move_applied_fields R game request h
      have hLe := (hInv hOver).2 k
      rw [hKey, hCount]
      by_cases hk : key = k
      · subst hk
        have : (game.positionHistory key + 1) % 256 = game.positionHistory key + 1 := by omega
        simp [this]
        omega
      · have hk2 : ¬ k = key := fun h => hk h.symm
        simp [hk, hk2]
    · obtain ⟨hKey, hCount⟩ := Move_failed_counters R game request h
      rw [hKey, hCount]
      simp

/-- The counters of a created game: one for the key recorded at creation. -/
theorem createGame_counters (R : Rules Board Piece) (board : Board) (key : List Nat) :
    (createGame R board).positionHistory key = (createdKey R board).toList.count key := by
  unfold createGame createdKey Game.updatePositionHistory
  cases hKey : Game.MarshalBinary R (Game.literal R board) with
  | error err => simp [Game.literal]
  | ok k =>
    by_cases hk : key = k
    · subst hk; simp [Game.literal]
    · have hk2 : ¬ k = key := fun h => hk h.symm
      simp [hk, hk2, Game.literal]

/-- The encoding-failure path of `Game.Move` in general: when the guards pass,
`takeMove` accepts the move and the encoding of the game then fails, `Move`
returns the encoding error and the game afterwards is the game before with the
board as `takeMove` left it; nothing is rolled back. -/
theorem Move_encoding_failure (R : Rules Board Piece) (game : Game Board Piece)
    (request : MoveRequest) (piece : Piece) (err : Error)
    (hOver : game.gameOver = false)
    (hPiece : R.pieceAt game.board request.Position = some piece)
    (hColor : R.color piece = game.turn)
    (hTake : (R.takeMove piece game.board request.Move game.previousMove game.previousMover
      (if game.turn = Color.White then game.whiteKing else game.blackKing)
      request.PromoteTo).1 = none)
    (hEncode : Game.MarshalBinary R (Game.moved R game request piece) = Except.error err) :
    Game.Move R game request = (some err, Game.moved R game request piece) := by
  obtain ⟨board, turn, gameOver, result, previousMove, previousMover, blackKing, whiteKing,
    positionHistory⟩ := game
  simp only at hOver hPiece hColor hTake
  subst hOver hColor
  unfold Game.Move
  simp only [Game.moved] at hEncode
  simp [hPiece, hTake, Game.updatePositionHistory, hEncode, Game.moved]

/-- C1: when the game is already over `Game.Move` returns `ErrGameOver`,
whatever the addressed square holds; otherwise, when the addressed square is
empty it returns an error; otherwise, when the piece on the square is not of
the colour whose turn it is it returns an error.  In each of the three cases
the game afterwards is the game before: board, turn, gameOver, result,
previousMove, previousMover and positionHistory are untouched. -/
theorem Move_rejects_without_mutation (R : Rules Board Piece) (game : Game Board Piece)
    (request : MoveRequest) :
    (game.gameOver = true →
      Game.Move R game request = (some Error.ErrGameOver, game)) ∧
    (game.gameOver = false → R.pieceAt game.board request.Position = none →
      Game.Move R game request = (some (Error.New "Cannot move nil piece"), game)) ∧
    (game.gameOver = false → ∀ piece, R.pieceAt game.board request.Position = some piece →
      R.color piece ≠ game.turn →
      Game.Move R game request = (some (Error.New "It's not your turn"), game)) := by
  refine ⟨?_, ?_, ?_⟩
  · intro hOver
    simp [Game.Move, hOver]
  · intro hOver hNone
    simp [Game.Move, hOver, hNone]
  · intro hOver piece hPiece hColor
    simp [Game.Move, hOver, hPiece, hColor]

/-- The three rejections of C1 on concrete games of the small rule set: a game
that is over, an empty square, and a black piece on White's turn. -/
theorem Move_rejects_without_mutation_witness :
    Game.Move demoRules (Game.SetGameResult (NewGame demoRules) Color.Black false)
        (demoRequest 0 0 0 1) =
      (some Error.ErrGameOver, Game.SetGameResult (NewGame demoRules) Color.Black false) ∧
    Game.Move demoRules (NewGame demoRules) (demoRequest 5 5 0 1) =
      (some (Error.New "Cannot move nil piece"), NewGame demoRules) ∧
    Game.Move demoRules (NewGame demoRules) (demoRequest 3 7 0 (-1)) =
      (some (Error.New "It's not your turn"), NewGame demoRules) :=
  ⟨(Move_rejects_without_mutation demoRules _ (demoRequest 0 0 0 1)).1 rfl,
   (Move_rejects_without_mutation demoRules _ (demoRequest 5 5 0 1)).2.1 rfl rfl,
   (Move_rejects_without_mutation demoRules _ (demoRequest 3 7 0 (-1))).2.2 rfl
     demoBlackRook rfl (by decide)⟩

/-- C2: a call of `Game.Move` that returns `nil` leaves the turn with the
opposite colour of the turn before the call, and a call that returns an error
leaves the turn unchanged; hence after any sequence of `Move` calls on a created
game (`NewGame`, `NewGameNoPawns`) the side to move is White when an even
number of plies has been applied and Black when an odd number has: the movers
of the applied plies alternate White, Black, White, ... -/
theorem Move_turn_alternates (R : Rules Board Piece) :
    (∀ (game : Game Board Piece) (request : MoveRequest),
      ((Game.Move R game request).1 = none →
        (Game.Move R game request).2.turn = getOppositeColor game.turn ∧
        (Game.Move R game request).2.turn ≠ game.turn) ∧
      ((Game.Move R game request).1 ≠ none →
        (Game.Move R game request).2.turn = game.turn)) ∧
    (∀ (board : Board) (requests : List MoveRequest),
      (Game.playAll R (createGame R board) requests).turn =
        if Game.appliedPlies R (createGame R board) requests % 2 = 0 then Color.White
        else Color.Black) := by
  refine ⟨fun game request => ⟨fun h => ?_, Move_turn_failed R game request⟩, ?_⟩
  · rw [Move_turn_applied R game request h]
    exact ⟨rfl, getOppositeColor_ne _⟩
  · intro board requests
    rw [playAll_turn, createGame_turn]
    rfl

/-- C2 on a concrete game of the small rule set: a rejected call, then White
and Black each apply a ply, and White is to move again. -/
theorem Move_turn_alternates_witness :
    (Game.playAll demoRules (NewGame demoRules)
      [demoRequest 3 7 0 (-1), demoRequest 0 0 0 1, demoRequest 3 7 0 (-1)]).turn =
      Color.White ∧
    (Game.playAll demoRules (NewGame demoRules)
      [demoRequest 3 7 0 (-1), demoRequest 0 0 0 1]).turn = Color.Black :=
  ⟨((Move_turn_alternates demoRules).2 demoBoard _).trans (by decide),
   ((Move_turn_alternates demoRules).2 demoBoard _).trans (by decide)⟩

/-- C5: on a game reached from `NewGame` (or from `createGame` on any board)
by any sequence of `Move` calls, when a further call returns `nil` and the
opponent has no reply afterwards, the game is over; when the opponent's king
is threatened the result is a win for the mover (`Winner` is the side that
moved, `Draw = false`), whatever the repetition counter; when it is not
threatened the result is a draw. -/
theorem Move_without_reply_ends_game (R : Rules Board Piece) (board : Board)
    (requests : List MoveRequest) (request : MoveRequest)
    (hApplied : (Game.Move R (Game.playAll R (createGame R board) requests) request).1 = none)
    (hNoReply :
      Game.replies R (Game.Move R (Game.playAll R (createGame R board) requests) request).2 = []) :
    (Game.Move R (Game.playAll R (createGame R board) requests) request).2.gameOver = true ∧
    (Game.kingThreatened R
        (Game.Move R (Game.playAll R (createGame R board) requests) request).2 = true →
      (Game.Move R (Game.playAll R (createGame R board) requests) request).2.result =
        { Winner := (Game.playAll R (createGame R board) requests).turn, Draw := false }) ∧
    (Game.kingThreatened R
        (Game.Move R (Game.playAll R (createGame R board) requests) request).2 = false →
      (Game.Move R (Game.playAll R (createGame R board) requests) request).2.result.Draw =
        true) := by
  have hInv := playAll_inPlay R requests _ (createGame_inPlay R board)
  generalize Game.playAll R (createGame R board) requests = game at hApplied hNoReply hInv ⊢
  obtain ⟨piece, key, hOver, -, -, -, -, hGameOver, hResult⟩ :=
    Move_applied_fields R game request hApplied
  have hDraw := (hInv hOver).1
  rw [hNoReply] at hGameOver hResult
  refine ⟨?_, ?_, ?_⟩
  · rw [hGameOver]
    unfold Game.applyOutcome
    cases Game.kingThreatened R (Game.Move R game request).2 <;> simp
  · intro hThreat
    rw [hResult, hThreat]
    unfold Game.applyOutcome
    simp [← hDraw]
  · intro hThreat
    rw [hResult, hThreat]
    unfold Game.applyOutcome
    simp

/-- The eighth ply of the shuffle draws the game, and the seventh does not end
it. -/
theorem shuffle_is_drawn_on_eighth_ply :
    (Game.playAll demoRules (NewGame demoRules) demoShuffle).gameOver = false ∧
    (Game.Move demoRules (Game.playAll demoRules (NewGame demoRules) demoShuffle)
      (demoRequest 3 6 0 1)).2.gameOver = true ∧
    (Game.Move demoRules (Game.playAll demoRules (NewGame demoRules) demoShuffle)
      (demoRequest 3 6 0 1)).2.result.Draw = true ∧
    (Game.Move demoRules (Game.playAll demoRules (NewGame demoRules) demoShuffle)
      (demoRequest 3 6 0 1)).2.positionHistory [0, 3, 0, 0, 4, 3, 7, 1, 4, 0, 2, 4, 7] = 3 := by
  refine ⟨by decide, by decide, by decide, by decide⟩

/-- C5 on a concrete game of the small rule set: White takes the last black
piece other than the king and stands next to the black king. -/
theorem Move_without_reply_ends_game_witness :
    (Game.Move demoRules (Game.playAll demoRules (createGame demoRules demoBoard) [])
      (demoRequest 0 0 3 7)).2.gameOver = true ∧
    (Game.Move demoRules (Game.playAll demoRules (createGame demoRules demoBoard) [])
      (demoRequest 0 0 3 7)).2.result = { Winner := Color.White, Draw := false } :=
  ⟨(Move_without_reply_ends_game demoRules demoBoard [] (demoRequest 0 0 3 7)
      (by decide) (by decide)).1,
   (Move_without_reply_ends_game demoRules demoBoard [] (demoRequest 0 0 3 7)
      (by decide) (by decide)).2.1 (by decide)⟩

/-- C4, amended: on a game created by `createGame` (`NewGame`,
`NewGameNoPawns`) and played by any sequence of `Move` calls, the counter of
every key equals the number of times `updatePositionHistory` has recorded that
key, once at creation and once in each applied ply; and a further call that
returns `nil` increments exactly one counter, the one of the key it records,
by exactly one and leaves every other counter unchanged. -/
theorem positionHistory_counts_recorded_keys (R : Rules Board Piece) (board : Board)
    (requests : List MoveRequest) :
    (∀ key, (Game.playAll R (createGame R board) requests).positionHistory key =
      ((createdKey R board).toList ++
        Game.recordedKeys R (createGame R board) requests).count key) ∧
    (∀ request,
      (Game.Move R (Game.playAll R (createGame R board) requests) request).1 = none →
      ∃ key,
        Game.recordedKey R (Game.playAll R (createGame R board) requests) request = some key ∧
        (Game.Move R (Game.playAll R (createGame R board) requests) request).2.positionHistory
            key =
          (Game.playAll R (createGame R board) requests).positionHistory key + 1 ∧
        ∀ other, other ≠ key →
          (Game.Move R (Game.playAll R (createGame R board) requests) request).2.positionHistory
              other =
            (Game.playAll R (createGame R board) requests).positionHistory other) := by
  refine ⟨fun key => ?_, fun request h => ?_⟩
  · rw [playAll_counters R requests key _ (createGame_inPlay R board), createGame_counters,
      List.count_append]
  · have hInv := playAll_inPlay R requests _ (createGame_inPlay R board)
    generalize Game.playAll R (createGame R board) requests = game at h hInv ⊢
    obtain ⟨piece, key, hOver, -, -, hKey, hCount, -, -⟩ := Move_applied_fields R game request h
    have hLe := (hInv hOver).2 key
    refine ⟨key, hKey, ?_, fun other hOther => ?_⟩
    · rw [hCount]
      have : (game.positionHistory key + 1) % 256 = game.positionHistory key + 1 := by omega
      simp [this]
    · rw [hCount]
      simp [hOther]

/-- C4 fails as stated: in the small rule set, after White's first ply the
position reached (Black to move) has the encoding shown and has occurred once,
and its counter in `positionHistory` is zero.  The counter that the ply
incremented belongs to the encoding taken inside `Move` before the turn, the
previous move and the previous mover were updated. -/
theorem positionHistory_misses_reached_position :
    Game.MarshalBinary demoRules
        (Game.playAll demoRules (NewGame demoRules) [demoRequest 0 0 0 1]) =
      Except.ok [0, 3, 0, 1, 4, 3, 7, 1, 4, 0, 2, 4, 7] ∧
    occurrences demoRules demoBoard [demoRequest 0 0 0 1]
      [0, 3, 0, 1, 4, 3, 7, 1, 4, 0, 2, 4, 7] = 1 ∧
    (Game.playAll demoRules (NewGame demoRules) [demoRequest 0 0 0 1]).positionHistory
      [0, 3, 0, 1, 4, 3, 7, 1, 4, 0, 2, 4, 7] = 0 := by
  refine ⟨by rfl, by decide, by decide⟩

/-- C6 at a failing input: under a piece encoder that fails, `Game.Move`
returns the encoding error for White's first ply, the turn stays with White,
and the board is no longer the board before the call: the piece has left its
square and stands on the target square. -/
theorem Move_encoding_failure_leaves_piece_moved :
    (Game.Move demoRulesNoEncoding (NewGame demoRulesNoEncoding) (demoRequest 0 0 0 1)).1 =
      some (Error.New "Cannot encode piece") ∧
    demoPieceAt (NewGame demoRulesNoEncoding).board { File := 0, Rank := 0 } =
      some demoWhiteRook ∧
    demoPieceAt
      (Game.Move demoRulesNoEncoding (NewGame demoRulesNoEncoding) (demoRequest 0 0 0 1)).2.board
      { File := 0, Rank := 0 } = none ∧
    demoPieceAt
      (Game.Move demoRulesNoEncoding (NewGame demoRulesNoEncoding) (demoRequest 0 0 0 1)).2.board
      { File := 0, Rank := 1 } = some demoWhiteRook ∧
    (Game.Move demoRulesNoEncoding (NewGame demoRulesNoEncoding) (demoRequest 0 0 0 1)).2.board ≠
      (NewGame demoRulesNoEncoding).board ∧
    (Game.Move demoRulesNoEncoding (NewGame demoRulesNoEncoding) (demoRequest 0 0 0 1)).2.turn =
      Color.White := by
  refine ⟨by rfl, by decide, by decide, by decide, by decide, by decide⟩

/-- C4, amended, on a concrete game of the small rule set: after the seven
plies of the shuffle the starting position has been recorded twice, and the
eighth ply records it a third time. -/
theorem positionHistory_counts_recorded_keys_witness :
    (Game.playAll demoRules (createGame demoRules demoBoard) demoShuffle).positionHistory
      [0, 3, 0, 0, 4, 3, 7, 1, 4, 0, 2, 4, 7] = 2 ∧
    ∃ key,
      Game.recordedKey demoRules (Game.playAll demoRules (createGame demoRules demoBoard)
        demoShuffle) (demoRequest 3 6 0 1) = some key ∧
      (Game.Move demoRules (Game.playAll demoRules (createGame demoRules demoBoard) demoShuffle)
          (demoRequest 3 6 0 1)).2.positionHistory key =
        (Game.playAll demoRules (createGame demoRules demoBoard) demoShuffle).positionHistory
          key + 1 ∧
      ∀ other, other ≠ key →
        (Game.Move demoRules (Game.playAll demoRules (createGame demoRules demoBoard) demoShuffle)
            (demoRequest 3 6 0 1)).2.positionHistory other =
          (Game.playAll demoRules (createGame demoRules demoBoard) demoShuffle).positionHistory
            other :=
  ⟨((positionHistory_counts_recorded_keys demoRules demoBoard demoShuffle).1 _).trans
      (by decide),
   (positionHistory_counts_recorded_keys demoRules demoBoard demoShuffle).2
      (demoRequest 3 6 0 1) (by decide)⟩

end model

/-! ## Theorems about the match orchestrator -/

namespace matchserver
open model
variable {Board Piece : Type}

/-- The other player is another player. -/
theorem Seat.other_ne (s : Seat) : s.other ≠ s := by
  cases s <;> simp [Seat.other]

/-- C7: in a match whose terminal signal is not yet closed, processing an async
request with `Resign = true` from either player ends the match in that step:
the signal is closed, the game is over with `Winner` the colour of the
sender's opponent and `Draw = false`, and the response offered to both players
has `GameOver = true`, `Resignation = true`, `Draw = false`, `Timeout = false`
and the opponent's name as `Winner`.  This holds whether or not either player
takes the response (`received` is arbitrary), whatever `RequestToDraw` the
request carries and whatever draw offer is standing. -/
theorem resignation_ends_match (m : Match Board Piece) (received : Seat → Bool) (sender : Seat)
    (request : RequestAsync) (hLive : m.gameOver = false) (hResign : request.Resign = true) :
    (Match.handleAsyncRequest m received sender request).1.gameOver = true ∧
    (Match.handleAsyncRequest m received sender request).1.game.gameOver = true ∧
    (Match.handleAsyncRequest m received sender request).1.game.result =
      { Winner := (m.player sender.other).color, Draw := false } ∧
    (Match.handleAsyncRequest m received sender request).2 =
      [Effect.broadcast Seat.black
        { GameOver := true, RequestToDraw := false, Draw := false, Resignation := true,
          Timeout := false, Winner := (m.player sender.other).name } (received Seat.black),
       Effect.broadcast Seat.white
        { GameOver := true, RequestToDraw := false, Draw := false, Resignation := true,
          Timeout := false, Winner := (m.player sender.other).name } (received Seat.white),
       Effect.closeGameOver] := by
  have hStep : Match.handleAsyncRequest m received sender request =
      Match.handleGameOver m received false true false sender.other := by
    simp [Match.handleAsyncRequest, hResign]
  rw [hStep]
  unfold Match.handleGameOver
  rw [hLive]
  exact ⟨rfl, rfl, rfl, rfl⟩

/-- C8: in a match whose terminal signal is not yet closed and in which the
sender's opponent holds the standing draw offer, processing a draw request
(`RequestToDraw = true`, `Resign = false`) ends the match as a draw: the
signal is closed, the game is over with `Draw = true`, and the response
offered to both players has `GameOver = true`, `Draw = true`,
`Resignation = false`, `Timeout = false` and an empty `Winner`. -/
theorem draw_offer_accepted (m : Match Board Piece) (received : Seat → Bool) (sender : Seat)
    (request : RequestAsync) (hLive : m.gameOver = false)
    (hOffer : m.requestedDraw = some sender.other)
    (hDraw : request.RequestToDraw = true) (hResign : request.Resign = false) :
    (Match.handleAsyncRequest m received sender request).1.gameOver = true ∧
    (Match.handleAsyncRequest m received sender request).1.game.gameOver = true ∧
    (Match.handleAsyncRequest m received sender request).1.game.result.Draw = true ∧
    (Match.handleAsyncRequest m received sender request).2 =
      [Effect.broadcast Seat.black
        { GameOver := true, RequestToDraw := false, Draw := true, Resignation := false,
          Timeout := false, Winner := "" } (received Seat.black),
       Effect.broadcast Seat.white
        { GameOver := true, RequestToDraw := false, Draw := true, Resignation := false,
          Timeout := false, Winner := "" } (received Seat.white),
       Effect.closeGameOver] := by
  simp [Match.handleAsyncRequest, Match.handleGameOver, Match.GetRequestedDraw, hLive, hOffer,
    hDraw, hResign, Game.SetGameResult]

/-- C9, amended: when the sender holds the standing draw offer, processing a
second draw request from the sender rescinds the offer and does not end the
game: the match afterwards is the match before with `requestedDraw` nil.  The
handler still starts one notification, to the sender's opponent only, with the
draw-offered flag set and `GameOver = false`, the same as for a fresh offer. -/
theorem second_draw_offer_rescinds (m : Match Board Piece) (received : Seat → Bool)
    (sender : Seat) (request : RequestAsync)
    (hOffer : m.requestedDraw = some sender)
    (hDraw : request.RequestToDraw = true) (hResign : request.Resign = false) :
    (Match.handleAsyncRequest m received sender request).1 = { m with requestedDraw := none } ∧
    (Match.handleAsyncRequest m received sender request).2 =
      [Effect.notify sender.other
        { GameOver := false, RequestToDraw := true, Draw := false, Resignation := false,
          Timeout := false, Winner := "" }] := by
  have hNe : ¬ sender = sender.other := fun h => Seat.other_ne sender h.symm
  simp [Match.handleAsyncRequest, Match.GetRequestedDraw, Match.SetRequestedDraw, hOffer, hDraw,
    hResign, hNe]

/-- C10: when no draw offer is standing, processing a draw request from either
player makes the sender the holder of the offer, changes nothing else in the
match (the game is not ended), and starts exactly one notification, to the
sender's opponent, with the draw-offered flag set and `GameOver = false`. -/
theorem first_draw_offer_notifies_opponent (m : Match Board Piece) (received : Seat → Bool)
    (sender : Seat) (request : RequestAsync)
    (hNone : m.requestedDraw = none)
    (hDraw : request.RequestToDraw = true) (hResign : request.Resign = false) :
    (Match.handleAsyncRequest m received sender request).1 =
      { m with requestedDraw := some sender } ∧
    (Match.handleAsyncRequest m received sender request).2 =
      [Effect.notify sender.other
        { GameOver := false, RequestToDraw := true, Draw := false, Resignation := false,
          Timeout := false, Winner := "" }] := by
  simp [Match.handleAsyncRequest, Match.GetRequestedDraw, Match.SetRequestedDraw, hNone, hDraw,
    hResign]

/-- C7 on a concrete match: White resigns while holding a draw offer, and
nobody takes the broadcast; Black is recorded as the winner. -/
theorem resignation_ends_match_witness :
    (Match.handleAsyncRequest { demoMatch with requestedDraw := some Seat.white }
      (fun _ => false) Seat.white resignRequest).1.game.result =
      { Winner := Color.Black, Draw := false } ∧
    (Match.handleAsyncRequest { demoMatch with requestedDraw := some Seat.white }
      (fun _ => false) Seat.white resignRequest).2 =
      [Effect.broadcast Seat.black
        { GameOver := true, RequestToDraw := false, Draw := false, Resignation := true,
          Timeout := false, Winner := "ann" } false,
       Effect.broadcast Seat.white
        { GameOver := true, RequestToDraw := false, Draw := false, Resignation := true,
          Timeout := false, Winner := "ann" } false,
       Effect.closeGameOver] :=
  ⟨(resignation_ends_match { demoMatch with requestedDraw := some Seat.white }
      (fun _ => false) Seat.white resignRequest rfl rfl).2.2.1,
   (resignation_ends_match { demoMatch with requestedDraw := some Seat.white }
      (fun _ => false) Seat.white resignRequest rfl rfl).2.2.2⟩

/-- C8 on a concrete match: Black has offered a draw and White offers one too. -/
theorem draw_offer_accepted_witness :
    (Match.handleAsyncRequest { demoMatch with requestedDraw := some Seat.black }
      (fun _ => true) Seat.white drawRequest).1.game.gameOver = true ∧
    (Match.handleAsyncRequest { demoMatch with requestedDraw := some Seat.black }
      (fun _ => true) Seat.white drawRequest).1.game.result.Draw = true :=
  ⟨(draw_offer_accepted { demoMatch with requestedDraw := some Seat.black }
      (fun _ => true) Seat.white drawRequest rfl rfl rfl rfl).2.1,
   (draw_offer_accepted { demoMatch with requestedDraw := some Seat.black }
      (fun _ => true) Seat.white drawRequest rfl rfl rfl rfl).2.2.1⟩

/-- C9 fails as stated: Black holds the standing offer and offers a draw again;
the handler starts a notification to White. -/
theorem second_draw_offer_notifies_opponent :
    (Match.handleAsyncRequest { demoMatch with requestedDraw := some Seat.black }
      (fun _ => true) Seat.black drawRequest).2 = [Effect.notify Seat.white drawOffered] ∧
    (Match.handleAsyncRequest { demoMatch with requestedDraw := some Seat.black }
      (fun _ => true) Seat.black drawRequest).2 ≠ [] := by
  refine ⟨by rfl, by decide⟩

/-- C9, amended, on a concrete match: Black holds the standing offer and
offers a draw again. -/
theorem second_draw_offer_rescinds_witness :
    (Match.handleAsyncRequest { demoMatch with requestedDraw := some Seat.black }
      (fun _ => true) Seat.black drawRequest).1.requestedDraw = none ∧
    (Match.handleAsyncRequest { demoMatch with requestedDraw := some Seat.black }
      (fun _ => true) Seat.black drawRequest).1.game.gameOver = false :=
  ⟨congrArg Match.requestedDraw
      (second_draw_offer_rescinds { demoMatch with requestedDraw := some Seat.black }
        (fun _ => true) Seat.black drawRequest rfl rfl rfl).1,
   congrArg (fun m => m.game.gameOver)
      (second_draw_offer_rescinds { demoMatch with requestedDraw := some Seat.black }
        (fun _ => true) Seat.black drawRequest rfl rfl rfl).1⟩

/-- C10 on a concrete match: no offer is standing and White offers a draw. -/
theorem first_draw_offer_notifies_opponent_witness :
    (Match.handleAsyncRequest demoMatch (fun _ => true) Seat.white drawRequest).1.requestedDraw =
      some Seat.white ∧
    (Match.handleAsyncRequest demoMatch (fun _ => true) Seat.white drawRequest).2 =
      [Effect.notify Seat.black drawOffered] :=
  ⟨congrArg Match.requestedDraw
      (first_draw_offer_notifies_opponent demoMatch (fun _ => true) Seat.white drawRequest
        rfl rfl rfl).1,
   (first_draw_offer_notifies_opponent demoMatch (fun _ => true) Seat.white drawRequest
      rfl rfl rfl).2⟩

end matchserver

/-! ## Theorems about timeouts, turns and match creation -/

namespace matchserver
open model
variable {Board Piece : Type}

/-- Asking `OnlyKing` by cases on the colour is asking it for the colour. -/
theorem onlyKing_by_color (OnlyKing : Game Board Piece → Color → Bool) (game : Game Board Piece)
    (color : Color) :
    (if color = Color.White then OnlyKing game Color.White else OnlyKing game Color.Black) =
      OnlyKing game color := by
  cases color <;> simp

/-- C11: in a match whose terminal signal is not yet closed, when the turn
timer that `handleTurn` arms for the player to move fires, the match ends:
when `OnlyKing` holds for the colour of the opponent (the side that did not
time out) it ends as a draw, with `Draw = true`, `Timeout = true` and an empty
`Winner` in the response offered to both players; otherwise it ends as a loss
for the side that timed out, with `Draw = false`, `Timeout = true`, the
opponent's name as `Winner` in the response and the opponent's colour as
`Winner` in the game. -/
theorem timeout_outcome (OnlyKing : Game Board Piece → Color → Bool) (m : Match Board Piece)
    (received : Seat → Bool) (hLive : m.gameOver = false) :
    (Match.handleTimeout OnlyKing m received m.turnPlayer.other).1.gameOver = true ∧
    (Match.handleTimeout OnlyKing m received m.turnPlayer.other).1.game.gameOver = true ∧
    (OnlyKing m.game (m.player m.turnPlayer.other).color = true →
      (Match.handleTimeout OnlyKing m received m.turnPlayer.other).1.game.result.Draw = true ∧
      (Match.handleTimeout OnlyKing m received m.turnPlayer.other).2 =
        [Effect.broadcast Seat.black
          { GameOver := true, RequestToDraw := false, Draw := true, Resignation := false,
            Timeout := true, Winner := "" } (received Seat.black),
         Effect.broadcast Seat.white
          { GameOver := true, RequestToDraw := false, Draw := true, Resignation := false,
            Timeout := true, Winner := "" } (received Seat.white),
         Effect.closeGameOver]) ∧
    (OnlyKing m.game (m.player m.turnPlayer.other).color = false →
      (Match.handleTimeout OnlyKing m received m.turnPlayer.other).1.game.result =
        { Winner := (m.player m.turnPlayer.other).color, Draw := false } ∧
      (Match.handleTimeout OnlyKing m received m.turnPlayer.other).2 =
        [Effect.broadcast Seat.black
          { GameOver := true, RequestToDraw := false, Draw := false, Resignation := false,
            Timeout := true, Winner := (m.player m.turnPlayer.other).name } (received Seat.black),
         Effect.broadcast Seat.white
          { GameOver := true, RequestToDraw := false, Draw := false, Resignation := false,
            Timeout := true, Winner := (m.player m.turnPlayer.other).name } (received Seat.white),
         Effect.closeGameOver]) := by
  unfold Match.handleTimeout
  simp only [onlyKing_by_color]
  cases hKing : OnlyKing m.game (m.player m.turnPlayer.other).color
  · simp [Match.handleGameOver, hLive, Game.SetGameResult]
  · simp [Match.handleGameOver, hLive, Game.SetGameResult]

/-- C12: `handleGameOver` is idempotent.  On a match whose terminal signal is
closed, a call with any arguments returns the match unchanged (the game with
its `gameOver` flag and result included) and performs no channel operation:
no response is offered and the signal is not closed again.  Hence after a
first call on any match a second call, whatever its cause, changes nothing:
the recorded outcome is that of the first. -/
theorem handleGameOver_idempotent (m : Match Board Piece) (received : Seat → Bool)
    (draw resignation timeout : Bool) (winner : Seat) :
    (m.gameOver = true →
      Match.handleGameOver m received draw resignation timeout winner = (m, [])) ∧
    (∀ (received₂ : Seat → Bool) (draw₂ resignation₂ timeout₂ : Bool) (winner₂ : Seat),
      Match.handleGameOver (Match.handleGameOver m received draw resignation timeout winner).1
          received₂ draw₂ resignation₂ timeout₂ winner₂ =
        ((Match.handleGameOver m received draw resignation timeout winner).1, [])) := by
  have hClosed : ∀ m' : Match Board Piece, m'.gameOver = true →
      ∀ (rc : Seat → Bool) (d r t : Bool) (w : Seat),
        Match.handleGameOver m' rc d r t w = (m', []) := by
    intro m' h rc d r t w
    unfold Match.handleGameOver
    rw [h]
    rfl
  refine ⟨fun h => hClosed m h _ _ _ _ _, fun rc d r t w => hClosed _ ?_ _ _ _ _ _⟩
  unfold Match.handleGameOver
  cases hOver : m.gameOver
  · rfl
  · simpa using hOver

/-- C11 on a concrete match: only the two kings are on the board and White is
to move; White's timer fires and the match is drawn. -/
theorem timeout_outcome_witness :
    (Match.handleTimeout demoOnlyKing demoKingsMatch (fun _ => true)
      demoKingsMatch.turnPlayer.other).1.game.result.Draw = true ∧
    (Match.handleTimeout demoOnlyKing demoKingsMatch (fun _ => true)
      demoKingsMatch.turnPlayer.other).2 =
      [Effect.broadcast Seat.black
        { GameOver := true, RequestToDraw := false, Draw := true, Resignation := false,
          Timeout := true, Winner := "" } true,
       Effect.broadcast Seat.white
        { GameOver := true, RequestToDraw := false, Draw := true, Resignation := false,
          Timeout := true, Winner := "" } true,
       Effect.closeGameOver] ∧
    demoKingsMatch.turnPlayer = Seat.white :=
  ⟨((timeout_outcome demoOnlyKing demoKingsMatch (fun _ => true) rfl).2.2.1 (by decide)).1,
   ((timeout_outcome demoOnlyKing demoKingsMatch (fun _ => true) rfl).2.2.1 (by decide)).2,
   by decide⟩

/-- C11 on a concrete match with material left: Black has a piece besides the
king, White's timer fires and Black wins. -/
theorem timeout_with_material_is_a_loss :
    (Match.handleTimeout demoOnlyKing demoMatch (fun _ => true)
      demoMatch.turnPlayer.other).1.game.result = { Winner := Color.Black, Draw := false } := by
  decide

/-- C12 on a concrete match: White resigns, then White's timer fires; the
outcome stays the resignation. -/
theorem handleGameOver_idempotent_witness :
    Match.handleGameOver (Match.handleGameOver demoMatch (fun _ => true) false true false
        Seat.black).1 (fun _ => true) true false true Seat.white =
      ((Match.handleGameOver demoMatch (fun _ => true) false true false Seat.black).1, []) ∧
    (Match.handleGameOver (Match.handleGameOver demoMatch (fun _ => true) false true false
        Seat.black).1 (fun _ => true) true false true Seat.white).1.game.result =
      { Winner := Color.Black, Draw := false } :=
  ⟨(handleGameOver_idempotent demoMatch (fun _ => true) false true false Seat.black).2
      (fun _ => true) true false true Seat.white,
   (congrArg (fun r => r.1.game.result)
      ((handleGameOver_idempotent demoMatch (fun _ => true) false true false Seat.black).2
        (fun _ => true) true false true Seat.white)).trans (by decide)⟩

end matchserver

namespace matchserver
open model
variable {Board Piece : Type}

/-- C15: in a match whose terminal signal is not yet closed, when `Game.Move`
rejects the request received from the player to move, `handleTurn` performs
exactly one channel operation, the send of a response with
`MoveSuccess = false` to that same player (so nothing is sent on the
opponent's `OpponentPlayedMove` channel), changes nothing in the match but the
game as `Move` left it (the players with their elapsed times and the standing
draw offer are as before), leaves the turn, and with it the player to move,
unchanged, and then waits for the next request of that same player. -/
theorem rejected_move_is_retried (R : Rules Board Piece) (m : Match Board Piece)
    (received : Seat → Bool) (preempted stopped : Bool) (elapsed : Int) (request : MoveRequest)
    (hLive : m.gameOver = false) (hRejected : (Game.Move R m.game request).1 ≠ none) :
    (Match.handleTurnRequest R m received preempted stopped elapsed m.turnPlayer request).2.1 =
      [Effect.respondSync m.turnPlayer
        { MoveSuccess := false, ElapsedMs := 0, ElapsedMsOpponent := 0 }] ∧
    (Match.handleTurnRequest R m received preempted stopped elapsed m.turnPlayer request).2.2 =
      TurnStatus.awaiting m.turnPlayer ∧
    (Match.handleTurnRequest R m received preempted stopped elapsed m.turnPlayer request).1 =
      { m with game := (Game.Move R m.game request).2 } ∧
    (Match.handleTurnRequest R m received preempted stopped elapsed m.turnPlayer
      request).1.game.turn = m.game.turn ∧
    (Match.handleTurnRequest R m received preempted stopped elapsed m.turnPlayer
      request).1.turnPlayer = m.turnPlayer := by
  have hStep :
      Match.handleTurnRequest R m received preempted stopped elapsed m.turnPlayer request =
        ({ m with game := (Game.Move R m.game request).2 },
          [Effect.respondSync m.turnPlayer
            { MoveSuccess := false, ElapsedMs := 0, ElapsedMsOpponent := 0 }],
          TurnStatus.awaiting m.turnPlayer) := by
    unfold Match.handleTurnRequest
    cases hMove : (Game.Move R m.game request).1 with
    | none => exact absurd hMove hRejected
    | some err => simp [hMove, hLive]
  have hTurn := Move_turn_failed R m.game request hRejected
  rw [hStep]
  refine ⟨rfl, rfl, rfl, hTurn, ?_⟩
  simp only [Match.turnPlayer, Game.Turn, hTurn]

/-- `handleGameOver` leaves the standing draw offer alone. -/
theorem handleGameOver_requestedDraw (m : Match Board Piece) (received : Seat → Bool)
    (draw resignation timeout : Bool) (winner : Seat) :
    (Match.handleGameOver m received draw resignation timeout winner).1.requestedDraw =
      m.requestedDraw := by
  unfold Match.handleGameOver
  split <;> rfl

/-- Replacing a player leaves the standing draw offer alone. -/
theorem setPlayer_requestedDraw (m : Match Board Piece) (seat : Seat) (p : Player) :
    (Match.setPlayer m seat p).requestedDraw = m.requestedDraw := by
  cases seat <;> rfl

/-- C16: whoever holds a standing draw offer, when `handleTurn` applies a
move (`Game.Move` returns `nil` and the turn timer is disarmed in time,
`stopped = true`) no draw offer is standing afterwards; so a draw request
processed next, from either player, is a fresh offer: it makes the sender the
holder of the offer and notifies the opponent, and does not end the match. -/
theorem applied_move_clears_draw_offer (R : Rules Board Piece) (m : Match Board Piece)
    (received : Seat → Bool) (preempted : Bool) (elapsed : Int) (player : Seat)
    (request : MoveRequest) (hApplied : (Game.Move R m.game request).1 = none) :
    (Match.handleTurnRequest R m received preempted true elapsed player request).1.requestedDraw =
      none ∧
    ∀ (received₂ : Seat → Bool) (sender : Seat) (offer : RequestAsync),
      offer.RequestToDraw = true → offer.Resign = false →
      Match.handleAsyncRequest
          (Match.handleTurnRequest R m received preempted true elapsed player request).1
          received₂ sender offer =
        ({ (Match.handleTurnRequest R m received preempted true elapsed player request).1 with
            requestedDraw := some sender },
          [Effect.notify sender.other
            { GameOver := false, RequestToDraw := true, Draw := false, Resignation := false,
              Timeout := false, Winner := "" }]) := by
  have hNone :
      (Match.handleTurnRequest R m received preempted true elapsed player request).1.requestedDraw =
        none := by
    unfold Match.handleTurnRequest
    simp only [hApplied, Bool.not_true, Bool.false_eq_true, if_false]
    split
    · rw [handleGameOver_requestedDraw, setPlayer_requestedDraw]
      rfl
    · rw [setPlayer_requestedDraw]
      rfl
  refine ⟨hNone, fun received₂ sender offer hDraw hResign => ?_⟩
  simp [Match.handleAsyncRequest, Match.GetRequestedDraw, Match.SetRequestedDraw, hNone, hDraw,
    hResign]

/-- Appending different suffixes gives different strings. -/
theorem append_suffix_ne (name : String) : name ++ "_black" ≠ name ++ "_white" := by
  intro h
  have hData := congrArg String.data h
  simp only [String.data_append, List.append_cancel_left_eq] at hData
  exact absurd hData (by decide)

/-- C19: after `NewMatch(black, white, maxTimeMs)` the first player's colour
is Black and the second's is White, `MaxTimeMs` is `maxTimeMs`, no draw offer
is standing, and the names of the two players differ: names that differ are
left as they are, and equal names become the name followed by `_black` and
`_white`. -/
theorem NewMatch_assigns_colours_and_names (R : Rules Board Piece) (black white : Player)
    (maxTimeMs : Int) :
    (NewMatch R black white maxTimeMs).black.color = Color.Black ∧
    (NewMatch R black white maxTimeMs).white.color = Color.White ∧
    Match.MaxTimeMs (NewMatch R black white maxTimeMs) = maxTimeMs ∧
    Match.GetRequestedDraw (NewMatch R black white maxTimeMs) = none ∧
    Match.PlayerName (NewMatch R black white maxTimeMs) Color.Black ≠
      Match.PlayerName (NewMatch R black white maxTimeMs) Color.White ∧
    (black.name ≠ white.name →
      (NewMatch R black white maxTimeMs).black.name = black.name ∧
      (NewMatch R black white maxTimeMs).white.name = white.name) ∧
    (black.name = white.name →
      (NewMatch R black white maxTimeMs).black.name = black.name ++ "_black" ∧
      (NewMatch R black white maxTimeMs).white.name = black.name ++ "_white") := by
  by_cases hName : black.name = white.name
  · have hSuffix := append_suffix_ne white.name
    simp [NewMatch, Match.MaxTimeMs, Match.GetRequestedDraw, Match.PlayerName, hName, hSuffix]
  · simp [NewMatch, Match.MaxTimeMs, Match.GetRequestedDraw, Match.PlayerName, hName]

/-- C15 on a concrete match: White is to move and asks to move a black piece. -/
theorem rejected_move_is_retried_witness :
    (Match.handleTurnRequest demoRules demoMatch (fun _ => true) false true 250
      demoMatch.turnPlayer (demoRequest 3 7 0 (-1))).2.1 =
      [Effect.respondSync Seat.white
        { MoveSuccess := false, ElapsedMs := 0, ElapsedMsOpponent := 0 }] ∧
    (Match.handleTurnRequest demoRules demoMatch (fun _ => true) false true 250
      demoMatch.turnPlayer (demoRequest 3 7 0 (-1))).2.2 = TurnStatus.awaiting Seat.white :=
  ⟨(rejected_move_is_retried demoRules demoMatch (fun _ => true) false true 250
      (demoRequest 3 7 0 (-1)) rfl (by decide)).1,
   (rejected_move_is_retried demoRules demoMatch (fun _ => true) false true 250
      (demoRequest 3 7 0 (-1)) rfl (by decide)).2.1⟩

/-- C16 on a concrete match: Black holds a draw offer and White applies a
move; the offer is gone and the opponent and the mover are told of the move. -/
theorem applied_move_clears_draw_offer_witness :
    (Match.handleTurnRequest demoRules { demoMatch with requestedDraw := some Seat.black }
      (fun _ => true) false true 250 Seat.white (demoRequest 0 0 0 1)).1.requestedDraw = none ∧
    (Match.handleTurnRequest demoRules { demoMatch with requestedDraw := some Seat.black }
      (fun _ => true) false true 250 Seat.white (demoRequest 0 0 0 1)).2.1 =
      [Effect.respondSync Seat.white
        { MoveSuccess := true, ElapsedMs := 250, ElapsedMsOpponent := 0 },
       Effect.opponentPlayedMove Seat.black (demoRequest 0 0 0 1)] :=
  ⟨(applied_move_clears_draw_offer demoRules { demoMatch with requestedDraw := some Seat.black }
      (fun _ => true) false 250 Seat.white (demoRequest 0 0 0 1) (by decide)).1,
   by decide⟩

/-- C19 on concrete players: two players with the same name. -/
theorem NewMatch_assigns_colours_and_names_witness :
    (NewMatch demoRules { name := "eve", color := Color.Black, elapsedMs := 0 }
      { name := "eve", color := Color.Black, elapsedMs := 0 } 60000).black.name = "eve_black" ∧
    (NewMatch demoRules { name := "eve", color := Color.Black, elapsedMs := 0 }
      { name := "eve", color := Color.Black, elapsedMs := 0 } 60000).white.name = "eve_white" :=
  ⟨((NewMatch_assigns_colours_and_names demoRules
      { name := "eve", color := Color.Black, elapsedMs := 0 }
      { name := "eve", color := Color.Black, elapsedMs := 0 } 60000).2.2.2.2.2.2 rfl).1,
   ((NewMatch_assigns_colours_and_names demoRules
      { name := "eve", color := Color.Black, elapsedMs := 0 }
      { name := "eve", color := Color.Black, elapsedMs := 0 } 60000).2.2.2.2.2.2 rfl).2⟩

end matchserver

/-! ## Theorems about the matchmaking pool and the session cache -/

namespace servermatch
open model
variable {Board Piece M : Type}

/-- Removing the only live match empties the registry. -/
theorem removeMatch_single (address : Nat) :
    MatchingServer.removeMatch [address] address = [] := by
  simp [MatchingServer.removeMatch, MatchingServer.removeMatchLoop, List.range_succ]

/-- With two or more live matches the loop of `removeMatch` never changes the
length of the registry. -/
theorem removeMatchLoop_length (liveMatches : List Nat) (matchToRemove : Nat)
    (hLen : liveMatches.length ≠ 1) (indices registry : List Nat) :
    (MatchingServer.removeMatchLoop liveMatches matchToRemove indices registry).length =
      registry.length := by
  induction indices generalizing registry with
  | nil => rfl
  | cons i rest ih =>
    unfold MatchingServer.removeMatchLoop
    by_cases hHit : liveMatches[i]? = some matchToRemove
    · simp [hHit, hLen]
    · simp only [hHit, if_false]
      exact ih registry

/-- With two or more live matches `removeMatch` leaves the length of the
registry as it was. -/
theorem removeMatch_length (registry : List Nat) (matchToRemove : Nat)
    (hLen : 2 ≤ registry.length) :
    (MatchingServer.removeMatch registry matchToRemove).length = registry.length :=
  removeMatchLoop_length registry matchToRemove (by omega) _ registry

/-- The number of consecutive pairs. -/
theorem pairsOf_length {α : Type} : ∀ l : List α, (pairsOf l).length = l.length / 2
  | [] => by simp [pairsOf]
  | [_] => by simp [pairsOf]
  | _ :: _ :: rest => by
    simp only [pairsOf, List.length_cons, pairsOf_length rest]
    omega

/-- The `i`-th consecutive pair holds the elements at positions `2 * i` and
`2 * i + 1`. -/
theorem pairsOf_getElem? {α : Type} : ∀ (l : List α) (i : Nat),
    (pairsOf l)[i]? = (l[2 * i]?).bind fun a => (l[2 * i + 1]?).map fun b => (a, b)
  | [], i => by simp [pairsOf]
  | [a], i => by
    cases i with
    | zero => simp [pairsOf]
    | succ n => simp [pairsOf, Nat.mul_succ]
  | a :: b :: rest, i => by
    cases i with
    | zero => simp [pairsOf]
    | succ n =>
      have h := pairsOf_getElem? rest n
      simp only [pairsOf, List.getElem?_cons_succ, Nat.mul_succ, h]

/-- The slot after a list of players, from a state with no claimed player and
an empty registry. -/
theorem matchAndPlay_fold (matchGenerator : Player → Player → Player × Player × M) :
    ∀ (players : List Player) (made : List (Player × Player × M)),
      players.foldl (MatchingServer.matchAndPlayStep matchGenerator)
          { player1 := none, player2 := none, liveMatches := [], generated := made } =
        { player1 := unpaired players
          player2 := none
          liveMatches := []
          generated := made ++ (pairsOf players).map fun pair =>
            matchGenerator { pair.1 with matchedOpponent := pair.2.name }
              { pair.2 with matchedOpponent := pair.1.name } }
  | [], made => by simp [pairsOf, unpaired]
  | [a], made => by simp [pairsOf, unpaired, MatchingServer.matchAndPlayStep]
  | a :: b :: rest, made => by
    simp only [List.foldl_cons, MatchingServer.matchAndPlayStep, List.nil_append,
      removeMatch_single]
    rw [matchAndPlay_fold matchGenerator rest]
    simp [pairsOf, unpaired]

end servermatch

namespace servermatch
open model
variable {Board Piece M : Type}

/-- The element `pairsOf` leaves out is the last one of a list of odd length. -/
theorem unpaired_eq {α : Type} : ∀ l : List α,
    unpaired l = if l.length % 2 = 1 then l.getLast? else none
  | [] => by simp [unpaired]
  | [a] => by simp [unpaired]
  | a :: b :: rest => by
    have h := unpaired_eq rest
    have hPar : (rest.length + 1 + 1) % 2 = rest.length % 2 := by omega
    simp only [unpaired, List.length_cons, hPar, h]
    cases rest with
    | nil => simp
    | cons c tail => simp [List.getLast?_cons_cons]

/-- C13 at failing inputs: with two live matches, removing the second leaves
the registry as it was, the match still in it; removing the first leaves the
second registered twice; with three, removing the middle one leaves the last
registered twice.  The length never goes down. -/
theorem removeMatch_leaves_registry_length :
    MatchingServer.removeMatch [10, 20] 20 = [10, 20] ∧
    MatchingServer.removeMatch [10, 20] 10 = [20, 20] ∧
    MatchingServer.removeMatch [10, 20, 30] 20 = [10, 30, 30] ∧
    server.MatchingServer.removeMatch [10, 20] 20 = [10, 20] ∧
    MatchingServer.LiveMatches (MatchingServer.removeMatch [10, 20] 20) = [10, 20] := by
  decide

/-- C14, amended: for every match generator and every sequence of players
delivered to a slot, the matches generated are, in order, the generator
applied to the consecutive pairs of the sequence, first with second, third
with fourth, ..., each of the two players having been given the name of the
other as `matchedOpponent` before the generator runs; there are `N / 2` of
them; the pair of index `i` holds the players at positions `2 * i` and
`2 * i + 1`, so no player is in two matches; the slot is left holding the last
player when `N` is odd and no player when `N` is even; and the registry is
empty again. -/
theorem matchAndPlay_pairs_in_arrival_order
    (matchGenerator : Player → Player → Player × Player × M) (players : List Player) :
    (MatchingServer.matchAndPlay matchGenerator players).generated =
      (pairsOf players).map (fun pair =>
        matchGenerator { pair.1 with matchedOpponent := pair.2.name }
          { pair.2 with matchedOpponent := pair.1.name }) ∧
    (MatchingServer.matchAndPlay matchGenerator players).generated.length =
      players.length / 2 ∧
    (∀ i, (pairsOf players)[i]? =
      (players[2 * i]?).bind fun a => (players[2 * i + 1]?).map fun b => (a, b)) ∧
    (MatchingServer.matchAndPlay matchGenerator players).player1 =
      (if players.length % 2 = 1 then players.getLast? else none) ∧
    (MatchingServer.matchAndPlay matchGenerator players).player2 = none ∧
    (MatchingServer.matchAndPlay matchGenerator players).liveMatches = [] := by
  unfold MatchingServer.matchAndPlay
  rw [matchAndPlay_fold matchGenerator players []]
  refine ⟨by simp, by simp [pairsOf_length], pairsOf_getElem? players, unpaired_eq players,
    rfl, rfl⟩

/-- C14 fails as stated: two players with the same name are paired by the
default generator; the first player's `matchedOpponent` is the name as it was
on arrival, while the generator has renamed the second player since. -/
theorem matchedOpponent_stale_after_renaming :
    (MatchingServer.matchAndPlay (DefaultMatchGenerator demoRules)
        [NewPlayer "eve", NewPlayer "eve"]).generated.map
      (fun made => (made.1.matchedOpponent, made.2.1.name)) = [("eve", "eve_white")] ∧
    (MatchingServer.matchAndPlay (DefaultMatchGenerator demoRules)
        [NewPlayer "eve", NewPlayer "eve"]).generated.map
      (fun made => decide (made.1.matchedOpponent = made.2.1.name)) = [false] := by
  refine ⟨by decide, by decide⟩

/-- C14, amended, on three concrete players: the first two are paired and the
third is left in the slot. -/
theorem matchAndPlay_pairs_in_arrival_order_witness :
    (MatchingServer.matchAndPlay (DefaultMatchGenerator demoRules)
        [NewPlayer "ann", NewPlayer "bob", NewPlayer "cid"]).generated.map
      (fun made => (made.1.name, made.1.matchedOpponent, made.2.1.name,
        made.2.1.matchedOpponent)) = [("ann", "bob", "bob", "ann")] ∧
    (MatchingServer.matchAndPlay (DefaultMatchGenerator demoRules)
        [NewPlayer "ann", NewPlayer "bob", NewPlayer "cid"]).player1 = some (NewPlayer "cid") :=
  ⟨(congrArg (List.map fun made => (made.1.name, made.1.matchedOpponent, made.2.1.name,
        made.2.1.matchedOpponent))
      (matchAndPlay_pairs_in_arrival_order (DefaultMatchGenerator demoRules)
        [NewPlayer "ann", NewPlayer "bob", NewPlayer "cid"]).1).trans (by decide),
   (matchAndPlay_pairs_in_arrival_order (DefaultMatchGenerator demoRules)
      [NewPlayer "ann", NewPlayer "bob", NewPlayer "cid"]).2.2.2.1.trans (by decide)⟩

end servermatch

namespace server
variable {P M : Type}

/-- Once a slot of `server.go` has made a match its `player2` is never nil
again, and it makes no further match. -/
theorem matchAndPlayStep_stuck (newMatch : P → P → M) (players : List P) :
    ∀ slot : Slot P M, slot.player2.isSome = true →
      (players.foldl (MatchingServer.matchAndPlayStep newMatch) slot).generated =
        slot.generated := by
  induction players with
  | nil => intro slot _; rfl
  | cons player rest ih =>
    intro slot hSome
    obtain ⟨p2, hp2⟩ := Option.isSome_iff_exists.mp hSome
    rw [List.foldl_cons]
    cases hp1 : slot.player1 with
    | none =>
      have hStep : MatchingServer.matchAndPlayStep newMatch slot player =
          { slot with player1 := some player } := by
        simp [MatchingServer.matchAndPlayStep, hp1]
      rw [hStep, ih _ (by simpa using hSome)]
    | some p1 =>
      have hStep : MatchingServer.matchAndPlayStep newMatch slot player = slot := by
        simp [MatchingServer.matchAndPlayStep, hp1, hp2]
      rw [hStep, ih _ hSome]

/-- A slot of `server.go` makes at most one match, however many players it
receives. -/
theorem matchAndPlay_at_most_one_match (newMatch : P → P → M) (players : List P) :
    (MatchingServer.matchAndPlay newMatch players).generated.length ≤ 1 := by
  unfold MatchingServer.matchAndPlay
  match players with
  | [] => simp
  | [a] => simp [MatchingServer.matchAndPlayStep]
  | a :: b :: rest =>
    simp only [List.foldl_cons, MatchingServer.matchAndPlayStep]
    rw [matchAndPlayStep_stuck newMatch rest]
    · simp
    · rfl

/-- C17 at a failing input: a slot of `server.go` that receives four players
makes one match, of the first two; after that match `player2` still holds the
second player, so the third player is claimed as `player1` and the fourth is
dropped. -/
theorem matchAndPlay_drops_later_players :
    (MatchingServer.matchAndPlay (fun a b => (a, b)) [1, 2, 3, 4]).generated = [(1, 2)] ∧
    (MatchingServer.matchAndPlay (fun a b => (a, b)) [1, 2]).player1 = none ∧
    (MatchingServer.matchAndPlay (fun a b => (a, b)) [1, 2]).player2 = some 2 ∧
    (MatchingServer.matchAndPlay (fun a b => (a, b)) [1, 2, 3, 4]).player1 = some 3 ∧
    (MatchingServer.matchAndPlay (fun a b => (a, b)) [1, 2, 3, 4]).player2 = some 2 := by
  decide

end server

namespace gateway
open model

/-- `Put` on a key that is not in the map stores the value with a zero
`lastAccess`, whatever the clock reads; the clock reading ends in the local
variable. -/
theorem Put_absent (t : TTLMap) (k : String) (v : matchserver.Player) (now : Int)
    (hAbsent : t.m k = none) :
    (TTLMap.Put t k v now).1 = none ∧
    (TTLMap.Put t k v now).2.1.m k = some { value := some v, lastAccess := 0 } ∧
    (TTLMap.Put t k v now).2.2 = { value := none, lastAccess := now } := by
  simp [TTLMap.Put, hAbsent]

/-- C18 at a failing input: a `Put` at clock reading 1000000 on an empty map
succeeds and stores the value with `lastAccess = 0`; a collection pass one
second later, with a TTL of 1800 seconds, deletes the entry. -/
theorem Put_entry_collected_before_ttl :
    (TTLMap.Put NewTTLMap "token" { name := "ann", color := Color.Black, elapsedMs := 0 }
      1000000).1 = none ∧
    (TTLMap.Put NewTTLMap "token" { name := "ann", color := Color.Black, elapsedMs := 0 }
      1000000).2.1.m "token" =
      some { value := some { name := "ann", color := Color.Black, elapsedMs := 0 },
             lastAccess := 0 } ∧
    (TTLMap.collect 1800
      (TTLMap.Put NewTTLMap "token" { name := "ann", color := Color.Black, elapsedMs := 0 }
        1000000).2.1 1000001).m "token" = none ∧
    ¬ ((1000001 : Int) - 1000000 > 1800) := by
  refine ⟨by decide, by decide, by decide, by decide⟩

end gateway
